import Mathlib

/-!
# Shallow embedding of the konbini selective-index AppView

This development embeds the ingestion pipeline of the konbini AppView
(record router, record handlers, revision guard, placeholder-post creation,
relevance gating, reconnect backoff, thread paging, notification listing)
as executable Lean definitions, translated from the Go sources
(`events.go`, `pgbackend.go`, `backend/backend.go`, `sync.go`,
`handlers.go`, `xrpc/notification/listNotifications.go`,
`xrpc/unspecced/getPostThreadV2.go`), and proves the specification's
claims about them.

Modelling conventions:
* Postgres tables are lists of rows; serial primary keys are modelled by
  per-table `next*Id` counters carried in the `Db` state.
* The LRU caches (`revCache`, `postInfoCache`) are modelled as unbounded
  association lists (most recent binding first); eviction is not modelled.
  The repo cache is write-through over the `repos` table and is modelled
  transparently by reading the table.
* Go handlers return `error`; database side effects performed before a
  failure persist.  Handlers are therefore modelled as
  `St → ... → St × Option String`, where `none` is success and the
  returned state carries whatever writes happened before a failure.
* Wall-clock reads (`time.Now()`) are passed in as explicit `now`
  arguments; `created`/`indexed` timestamps that no claim depends on are
  omitted from rows.
* Sequential semantics: the unique-constraint race branches
  (Postgres error 23505 re-reads) are dead code in a sequential model;
  the corresponding upserts/inserts are modelled directly.
-/

namespace Konbini

/-- Opaque record bytes (`[]byte` in Go). -/
abbrev Bytes := List Nat

/-- A row of the `repos` table (`models.Repo`): stable internal id per DID. -/
structure RepoRow where
  id : Nat
  did : String
deriving Repr, DecidableEq

/-- A row of the `posts` table (`models.Post`).  `created`/`indexed`
timestamps are omitted (no claim depends on them). -/
structure PostRow where
  id : Nat
  author : Nat
  rkey : String
  cid : String
  notFound : Bool
  raw : Bytes
  reposting : Nat
  replyTo : Nat
  replyToUsr : Nat
  inThread : Nat
deriving Repr, DecidableEq

/-- A row of the `likes` table. -/
structure LikeRow where
  id : Nat
  author : Nat
  rkey : String
  subject : Nat
  cid : String
deriving Repr, DecidableEq

/-- A row of the `reposts` table (no cid column in the insert). -/
structure RepostRow where
  id : Nat
  author : Nat
  rkey : String
  subject : Nat
deriving Repr, DecidableEq

/-- A row of the `follows` table. -/
structure FollowRow where
  id : Nat
  author : Nat
  rkey : String
  subject : Nat
deriving Repr, DecidableEq

/-- A row of the `profiles` table. -/
structure ProfileRow where
  id : Nat
  repo : Nat
  rev : String
  raw : Bytes
deriving Repr, DecidableEq

/-- A row of the `notifications` table (`models.Notification`): recipient
(`for`), author, kind, source AT-URI, and creation wall-clock time. -/
structure NotifRow where
  id : Nat
  forId : Nat
  author : Nat
  kind : String
  source : String
  createdAt : Nat
deriving Repr, DecidableEq

/-- A row of the `sync_infos` table (persistent per-repo rev counter). -/
structure SyncInfoRow where
  repo : Nat
  followsSynced : Bool
  rev : String
deriving Repr, DecidableEq

/-- The relational store. -/
structure Db where
  repos : List RepoRow
  posts : List PostRow
  likes : List LikeRow
  reposts : List RepostRow
  follows : List FollowRow
  profiles : List ProfileRow
  notifications : List NotifRow
  syncInfos : List SyncInfoRow
  nextRepoId : Nat
  nextPostId : Nat
  nextLikeId : Nat
  nextRepostId : Nat
  nextFollowId : Nat
  nextProfileId : Nat
  nextNotifId : Nat
deriving Repr, DecidableEq

/-- In-process backend state (`PostgresBackend` + the server's principal
repo): database, rev cache, post-info cache, relevance set, principal id. -/
structure St where
  db : Db
  revCache : List (Nat × String)
  postInfoCache : List (String × Nat × Nat)
  relevantDids : List String
  myrepoId : Nat
deriving Repr, DecidableEq

/-! ## Cache primitives (association lists, most recent binding first) -/

/-- `revCache.Add` / `postInfoCache.Add`: the freshest binding shadows. -/
def addAssoc {α β : Type} (l : List (α × β)) (k : α) (v : β) : List (α × β) :=
  (k, v) :: l

/-- Cache lookup (`.Get`). -/
def lookupAssoc {α β : Type} [BEq α] (l : List (α × β)) (k : α) : Option β :=
  match l with
  | [] => none
  | (k', v) :: rest => if k' == k then some v else lookupAssoc rest k

/-! ## String utilities

Character-list implementations of the Go string operations the handlers
use (`strings.HasPrefix`, `strings.Split`, `strings.Contains`); they
agree with the library versions on the ASCII identifiers involved and
are written structurally so concrete runs evaluate. -/

/-- `pat` is a leading segment of `s`. -/
def startsWithChars : List Char → List Char → Bool
  | _, [] => true
  | [], _ :: _ => false
  | c :: cs, p :: ps => c == p && startsWithChars cs ps

/-- `strings.HasPrefix`. -/
def strStarts (s pat : String) : Bool :=
  startsWithChars s.data pat.data

/-- Split a character list on a separator character (`strings.Split`
with a one-character separator; always returns at least one group). -/
def splitOnChar (sep : Char) : List Char → List (List Char)
  | [] => [[]]
  | c :: cs =>
    match splitOnChar sep cs with
    | [] => [[]]
    | g :: gs => if c == sep then [] :: g :: gs else (c :: g) :: gs

/-- `strings.Split s "/"` as a list of strings. -/
def splitSlash (s : String) : List String :=
  (splitOnChar '/' s.data).map String.mk

/-- `pat` occurs somewhere in `s`. -/
def containsSub : List Char → List Char → Bool
  | [], pat => startsWithChars [] pat
  | c :: cs, pat => startsWithChars (c :: cs) pat || containsSub cs pat

/-- `strings.Contains`. -/
def containsSubstr (s pat : String) : Bool :=
  containsSub s.data pat.data

/-! ## Identifier parsing

`util.ParseAtUri` and `syntax.ParseATURI` are library functions; they are
modelled by the evident string decomposition of a well-formed
`at://<authority>/<collection>/<rkey>` URI. -/

/-- `util.ParseAtUri`: split an AT-URI into (did, collection, rkey). -/
def parseAtUri (uri : String) : Option (String × String × String) :=
  if strStarts uri "at://" then
    match (splitOnChar '/' (uri.data.drop 5)).map String.mk with
    | [did, col, rkey] => some (did, col, rkey)
    | _ => none
  else none

/-- `syntax.ParseATURI(...).Authority()`: the authority segment of an
AT-URI, `none` on malformed input. -/
def atUriAuthority (uri : String) : Option String :=
  if strStarts uri "at://" then
    match (splitOnChar '/' (uri.data.drop 5)).map String.mk with
    | [] => none
    | a :: _ => if a = "" then none else some a
  else none

/-! ## Relevance set (`pgbackend.go` / `backend/backend.go`) -/

/-- `didIsRelevant`: membership in the process-wide relevance set. -/
def didIsRelevant (rel : List String) (did : String) : Bool :=
  rel.contains did

/-- One iteration of the loop body of `anyRelevantIdents`: a `did:` ident
is checked directly; an `at://` ident is parsed and its authority checked;
parse failures and other shapes are skipped. -/
def identRelevant (rel : List String) (ident : String) : Bool :=
  if strStarts ident "did:" then didIsRelevant rel ident
  else if strStarts ident "at://" then
    match atUriAuthority ident with
    | some a => didIsRelevant rel a
    | none => false
  else false

/-- `anyRelevantIdents`. -/
def anyRelevantIdents (rel : List String) (idents : List String) : Bool :=
  idents.any (identRelevant rel)

/-! ## Repo registry -/

/-- `getOrCreateRepo`: find the repo row by DID, else insert a fresh row.
The repo LRU cache is write-through over the table and modelled
transparently. -/
def getOrCreateRepo (st : St) (did : String) : St × RepoRow :=
  match st.db.repos.find? (fun r => r.did == did) with
  | some r => (st, r)
  | none =>
    let r : RepoRow := { id := st.db.nextRepoId, did := did }
    ({ st with db := { st.db with
        repos := st.db.repos ++ [r],
        nextRepoId := st.db.nextRepoId + 1 } }, r)

/-! ## Post lookup and placeholder creation -/

/-- `SELECT ... FROM posts WHERE author = $1 AND rkey = $2` (first row). -/
def findPost (posts : List PostRow) (author : Nat) (rkey : String) : Option PostRow :=
  posts.find? (fun p => p.author == author && p.rkey == rkey)

/-- `tryLoadPostInfo`: load `(id, author)` of the post at `(uid, rkey)`,
`none` when absent. -/
def tryLoadPostInfo (db : Db) (uid : Nat) (rkey : String) : Option PostRow :=
  findPost db.posts uid rkey

/-- `getOrCreatePostBare`: return a stable post row for a URI, inserting a
`not_found = true` placeholder when the record is unknown, and caching
`(id, author)` under the URI.  (The 23505 constraint-collision re-read is
the concurrent-race branch and is dead in this sequential model.) -/
def getOrCreatePostBare (st : St) (uri : String) : St × Except String PostRow :=
  match parseAtUri uri with
  | none => (st, Except.error "invalid at uri")
  | some (did, _col, rkey) =>
    let (st1, r) := getOrCreateRepo st did
    match tryLoadPostInfo st1.db r.id rkey with
    | some p =>
      ({ st1 with postInfoCache := addAssoc st1.postInfoCache uri (p.id, p.author) },
       Except.ok p)
    | none =>
      let p : PostRow :=
        { id := st1.db.nextPostId, author := r.id, rkey := rkey,
          cid := "", notFound := true, raw := [],
          reposting := 0, replyTo := 0, replyToUsr := 0, inThread := 0 }
      ({ st1 with
          db := { st1.db with
            posts := st1.db.posts ++ [p],
            nextPostId := st1.db.nextPostId + 1 },
          postInfoCache := addAssoc st1.postInfoCache uri (p.id, p.author) },
       Except.ok p)

/-- `postInfoForUri`: cached `(id, author)` for a post URI; fills the
cache through `getOrCreatePostBare` on a miss. -/
def postInfoForUri (st : St) (uri : String) : St × Except String (Nat × Nat) :=
  match lookupAssoc st.postInfoCache uri with
  | some v => (st, Except.ok v)
  | none =>
    match getOrCreatePostBare st uri with
    | (st1, Except.ok p) => (st1, Except.ok (p.id, p.author))
    | (st1, Except.error e) => (st1, Except.error e)

/-- `postIDForUri`. -/
def postIDForUri (st : St) (uri : String) : St × Except String Nat :=
  match postInfoForUri st uri with
  | (st1, Except.ok v) => (st1, Except.ok v.1)
  | (st1, Except.error e) => (st1, Except.error e)

/-- `checkPostExists`: a non-placeholder row exists at `(author, rkey)`. -/
def checkPostExists (db : Db) (author : Nat) (rkey : String) : Bool :=
  match findPost db.posts author rkey with
  | some p => p.id != 0 && !p.notFound
  | none => false

/-! ## Post upsert -/

/-- Replace the first row matching `(author, rkey)` by `nw`. -/
def replaceFirstPost : List PostRow → Nat → String → PostRow → List PostRow
  | [], _, _, _ => []
  | q :: qs, a, rk, nw =>
    if q.author == a && q.rkey == rk then nw :: qs
    else q :: replaceFirstPost qs a rk nw

/-- `doPostCreate`: `INSERT ... ON CONFLICT (author, rkey) DO UPDATE SET
cid, not_found, raw, reposting, reply_to, reply_to_usr, in_thread ...
RETURNING id`.  An existing row keeps its id; a fresh row gets the next
serial id. -/
def doPostCreate (db : Db) (p : PostRow) : Db × Nat :=
  match findPost db.posts p.author p.rkey with
  | some old =>
    ({ db with posts := replaceFirstPost db.posts p.author p.rkey { p with id := old.id } },
     old.id)
  | none =>
    let pid := db.nextPostId
    ({ db with posts := db.posts ++ [{ p with id := pid }], nextPostId := pid + 1 }, pid)

/-! ## Record payloads (`bsky.FeedPost` etc., fields the handlers read) -/

/-- `atproto.RepoStrongRef`: a record reference by URI (cid unused here). -/
structure StrongRef where
  uri : String
deriving Repr, DecidableEq

/-- `bsky.FeedPost_ReplyRef`. -/
structure ReplyRef where
  parent : Option StrongRef
  root : Option StrongRef
deriving Repr, DecidableEq

/-- The two quote-embed shapes the handler inspects:
`Embed.EmbedRecord.Record.Uri` and
`Embed.EmbedRecordWithMedia.Record.Record.Uri` (each `none` when the
corresponding pointer chain has a nil). -/
structure PostEmbed where
  recordUri : Option String
  recordWithMediaUri : Option String
deriving Repr, DecidableEq

/-- One facet feature: `RichtextFacet_Mention.Did` when the feature is a
mention, `none` for link/tag features. -/
structure FacetFeature where
  mentionDid : Option String
deriving Repr, DecidableEq

/-- `bsky.RichtextFacet` (features only). -/
structure Facet where
  features : List FacetFeature
deriving Repr, DecidableEq

/-- `bsky.FeedPost` (fields read by `HandleCreatePost`); a nil Go pointer
or slice is `none` / `[]`. -/
structure FeedPost where
  reply : Option ReplyRef
  embed : Option PostEmbed
  facets : List Facet
deriving Repr, DecidableEq

/-! ## Notification ledger -/

/-- `NotifKindReply` (string per `mapNotifKind` / the `notifications.kind`
column). -/
def NotifKindReply : String := "reply"

/-- `NotifKindLike`. -/
def NotifKindLike : String := "like"

/-- `NotifKindRepost`. -/
def NotifKindRepost : String := "repost"

/-- `NotifKindMention`. -/
def NotifKindMention : String := "mention"

/-- Modelled from the spec: `Server.AddNotification` is called from the
record handlers but its body is not among the provided sources.  §4.10
specifies the notification ledger as append-only and §3 gives the row
shape `{id, for, author, kind, source, created_at}`; accordingly the
model appends one row with the next serial id and the current wall-clock
time. -/
def AddNotification (st : St) (forId author : Nat) (source kind : String) (now : Nat) : St :=
  { st with db := { st.db with
      notifications := st.db.notifications ++
        [{ id := st.db.nextNotifId, forId := forId, author := author,
           kind := kind, source := source, createdAt := now }],
      nextNotifId := st.db.nextNotifId + 1 } }

/-! ## Record handlers (`events.go`) -/

/-- The relevance idents `HandleCreatePost` collects: the author DID,
plus the reply parent and root URIs when the record is a reply with both
pointers present. -/
def reldidsOfPost (repoDid : String) (rec : FeedPost) : List String :=
  repoDid :: (match rec.reply with
    | some rr =>
      match rr.parent, rr.root with
      | some pu, some ru => [pu.uri, ru.uri]
      | _, _ => []
    | none => [])

/-- The quote-subject URI `rpref` computed from the embed: the
`EmbedRecord` URI, overridden by the `EmbedRecordWithMedia` URI when
present; `""` when neither is present. -/
def embedQuoteUri (e : PostEmbed) : String :=
  let r := match e.recordUri with | some u => u | none => ""
  match e.recordWithMediaUri with | some u => u | none => r

/-- The mention-notification loop over facets: for each mention feature,
resolve the mentioned DID to a repo and append a mention notification
when it is the principal.  (A `getOrCreateRepo` failure is skipped with a
warning in Go; the modelled registry cannot fail.) -/
def processMentions (st : St) (facets : List Facet) (pAuthor : Nat) (uri : String)
    (now : Nat) : St :=
  facets.foldl (fun st1 f =>
    f.features.foldl (fun st2 feat =>
      match feat.mentionDid with
      | none => st2
      | some mdid =>
        let (st3, mrepo) := getOrCreateRepo st2 mdid
        if mrepo.id == st3.myrepoId then
          AddNotification st3 st3.myrepoId pAuthor uri NotifKindMention now
        else st3) st1) st

/-- The reply-processing block of `HandleCreatePost`: resolve the parent
(filling `reply_to`, `reply_to_usr`), resolve the thread root (filling
`in_thread`), and append a reply notification when the parent author is
the principal.  Returns the updated state and post row, or the error. -/
def processReply (st : St) (rr : ReplyRef) (p : PostRow) (uri : String) (now : Nat) :
    St × Except String PostRow :=
  match rr.parent with
  | none => (st, Except.ok p)
  | some pu =>
    match rr.root with
    | none => (st, Except.error "post reply had nil root")
    | some ru =>
      match postInfoForUri st pu.uri with
      | (st1, Except.error e) => (st1, Except.error ("getting reply parent: " ++ e))
      | (st1, Except.ok (pid, pauthor)) =>
        let p1 := { p with replyTo := pid, replyToUsr := pauthor }
        match postIDForUri st1 ru.uri with
        | (st2, Except.error e) => (st2, Except.error ("getting thread root: " ++ e))
        | (st2, Except.ok tid) =>
          let p2 := { p1 with inThread := tid }
          if p2.replyToUsr == st2.myrepoId then
            (AddNotification st2 st2.myrepoId p2.author uri NotifKindReply now, Except.ok p2)
          else (st2, Except.ok p2)

/-- The quote-embed block of `HandleCreatePost`: when the embed subject is
a post URI, resolve it and fill `reposting`. -/
def processEmbed (st : St) (embed : Option PostEmbed) (p : PostRow) :
    St × Except String PostRow :=
  match embed with
  | none => (st, Except.ok p)
  | some e =>
    let rpref := embedQuoteUri e
    if rpref != "" && containsSubstr rpref "app.bsky.feed.post" then
      match postIDForUri st rpref with
      | (st1, Except.error err) => (st1, Except.error ("getting quote subject: " ++ err))
      | (st1, Except.ok rp) => (st1, Except.ok { p with reposting := rp })
    else (st, Except.ok p)

/-- `HandleCreatePost`.  `upsertFails` injects a transient database
failure at the `doPostCreate` upsert (Go surfaces the error after the
earlier writes have already happened). -/
def HandleCreatePost (st : St) (repo : RepoRow) (rkey : String) (rec : FeedPost)
    (recb : Bytes) (cc : String) (now : Nat) (upsertFails : Bool) : St × Option String :=
  if checkPostExists st.db repo.id rkey then (st, none)
  else if !anyRelevantIdents st.relevantDids (reldidsOfPost repo.did rec) then (st, none)
  else
    let uri := "at://" ++ repo.did ++ "/app.bsky.feed.post/" ++ rkey
    let p : PostRow :=
      { id := 0, author := repo.id, rkey := rkey, cid := cc, notFound := false,
        raw := recb, reposting := 0, replyTo := 0, replyToUsr := 0, inThread := 0 }
    let step1 : St × Except String PostRow :=
      match rec.reply with
      | none => (st, Except.ok p)
      | some rr => processReply st rr p uri now
    match step1 with
    | (st1, Except.error e) => (st1, some e)
    | (st1, Except.ok p1) =>
      match processEmbed st1 rec.embed p1 with
      | (st2, Except.error e) => (st2, some e)
      | (st2, Except.ok p2) =>
        if upsertFails then (st2, some "doPostCreate: database error")
        else
          let (db3, pid) := doPostCreate st2.db p2
          let st3 := { st2 with db := db3 }
          let st4 := processMentions st3 rec.facets p2.author uri now
          ({ st4 with postInfoCache := addAssoc st4.postInfoCache uri (pid, p2.author) },
           none)

/-- `bsky.FeedLike` / `bsky.FeedRepost` payload: the subject reference. -/
structure SubjectRec where
  subjectUri : String
deriving Repr, DecidableEq

/-- `HandleCreateLike`: relevance gate, subject resolution, insert (a
unique-constraint collision on `(author, rkey)` returns success without
a notification), then a like notification when the subject post belongs
to the principal. -/
def HandleCreateLike (st : St) (repo : RepoRow) (rkey : String) (rec : SubjectRec)
    (cc : String) (now : Nat) : St × Option String :=
  if !anyRelevantIdents st.relevantDids [repo.did, rec.subjectUri] then (st, none)
  else
    match postInfoForUri st rec.subjectUri with
    | (st1, Except.error e) => (st1, some ("getting like subject: " ++ e))
    | (st1, Except.ok (pid, pauthor)) =>
      if st1.db.likes.any (fun l => l.author == repo.id && l.rkey == rkey) then (st1, none)
      else
        let st2 := { st1 with db := { st1.db with
          likes := st1.db.likes ++
            [{ id := st1.db.nextLikeId, author := repo.id, rkey := rkey,
               subject := pid, cid := cc }],
          nextLikeId := st1.db.nextLikeId + 1 } }
        if pauthor == st2.myrepoId then
          let uri := "at://" ++ repo.did ++ "/app.bsky.feed.like/" ++ rkey
          (AddNotification st2 st2.myrepoId repo.id uri NotifKindLike now, none)
        else (st2, none)

/-- `HandleCreateRepost` (same shape as likes, kind `repost`). -/
def HandleCreateRepost (st : St) (repo : RepoRow) (rkey : String) (rec : SubjectRec)
    (now : Nat) : St × Option String :=
  if !anyRelevantIdents st.relevantDids [repo.did, rec.subjectUri] then (st, none)
  else
    match postInfoForUri st rec.subjectUri with
    | (st1, Except.error e) => (st1, some ("getting repost subject: " ++ e))
    | (st1, Except.ok (pid, pauthor)) =>
      if st1.db.reposts.any (fun l => l.author == repo.id && l.rkey == rkey) then (st1, none)
      else
        let st2 := { st1 with db := { st1.db with
          reposts := st1.db.reposts ++
            [{ id := st1.db.nextRepostId, author := repo.id, rkey := rkey,
               subject := pid }],
          nextRepostId := st1.db.nextRepostId + 1 } }
        if pauthor == st2.myrepoId then
          let uri := "at://" ++ repo.did ++ "/app.bsky.feed.repost/" ++ rkey
          (AddNotification st2 st2.myrepoId repo.id uri NotifKindRepost now, none)
        else (st2, none)

/-- `HandleCreateFollow`: relevance gate, subject repo resolution, then
`INSERT ... ON CONFLICT DO NOTHING`. -/
def HandleCreateFollow (st : St) (repo : RepoRow) (rkey : String) (subjectDid : String) :
    St × Option String :=
  if !anyRelevantIdents st.relevantDids [repo.did, subjectDid] then (st, none)
  else
    let (st1, subj) := getOrCreateRepo st subjectDid
    if st1.db.follows.any (fun f => f.author == repo.id && f.rkey == rkey) then (st1, none)
    else
      ({ st1 with db := { st1.db with
          follows := st1.db.follows ++
            [{ id := st1.db.nextFollowId, author := repo.id, rkey := rkey,
               subject := subj.id }],
          nextFollowId := st1.db.nextFollowId + 1 } }, none)

/-- `HandleCreateProfile` / `HandleUpdateProfile` share one body: gate on
the author and append a fresh profile row (gorm `Create`, no upsert). -/
def HandleCreateProfile (st : St) (repo : RepoRow) (rev : String) (recb : Bytes) :
    St × Option String :=
  if !anyRelevantIdents st.relevantDids [repo.did] then (st, none)
  else
    ({ st with db := { st.db with
        profiles := st.db.profiles ++
          [{ id := st.db.nextProfileId, repo := repo.id, rev := rev, raw := recb }],
        nextProfileId := st.db.nextProfileId + 1 } }, none)

/-! ## Revision guard and record router -/

/-- Go's `rev < lrev` on strings (byte-wise lexicographic; on the ASCII
revision strings this is character-wise lexicographic order). -/
def charListLt : List Char → List Char → Bool
  | [], [] => false
  | [], _ :: _ => true
  | _ :: _, [] => false
  | a :: as, b :: bs =>
    if a.toNat < b.toNat then true
    else if b.toNat < a.toNat then false
    else charListLt as bs

/-- String comparison used by the revision guard. -/
def revLt (a b : String) : Bool :=
  charListLt a.data b.data

/-- The persisted rev for a repo: `SELECT COALESCE(rev, '') FROM
sync_infos WHERE repo = $1`, with no-rows mapped to `""`. -/
def syncInfoRev (db : Db) (repoId : Nat) : String :=
  match db.syncInfos.find? (fun si => si.repo == repoId) with
  | some si => si.rev
  | none => ""

/-- `revForRepo`: the cached rev for a repo, loaded lazily from
`sync_infos` on a cache miss and cached when non-empty. -/
def revForRepo (st : St) (rr : RepoRow) : St × String :=
  match lookupAssoc st.revCache rr.id with
  | some lrev => (st, lrev)
  | none =>
    let rev := syncInfoRev st.db rr.id
    if rev != "" then ({ st with revCache := addAssoc st.revCache rr.id rev }, rev)
    else (st, rev)

/-- A decoded commit-op record, tagged by the collection the bytes decode
under.  Collections whose tables are not modelled (lists, list items,
feed generators, gates, starter packs, chat declarations) are `unknown`
and their handlers are not modelled; no claim touches them. -/
inductive OpRecord where
  | post (rec : FeedPost) (raw : Bytes) (cid : String)
  | like (rec : SubjectRec) (cid : String)
  | repost (rec : SubjectRec)
  | follow (subjectDid : String)
  | profile (raw : Bytes)
  | unknown
deriving Repr, DecidableEq

/-- The create dispatch table of `HandleCreate` (modelled collections;
a record whose bytes do not decode under the path's collection is a
decode error). -/
def dispatchCreate (st : St) (rr : RepoRow) (col rkey rev : String) (orec : OpRecord)
    (now : Nat) : St × Option String :=
  match col, orec with
  | "app.bsky.feed.post", OpRecord.post rec raw cc =>
    HandleCreatePost st rr rkey rec raw cc now false
  | "app.bsky.feed.like", OpRecord.like rec cc => HandleCreateLike st rr rkey rec cc now
  | "app.bsky.feed.repost", OpRecord.repost rec => HandleCreateRepost st rr rkey rec now
  | "app.bsky.graph.follow", OpRecord.follow subj => HandleCreateFollow st rr rkey subj
  | "app.bsky.actor.profile", OpRecord.profile raw => HandleCreateProfile st rr rev raw
  | _, OpRecord.unknown => (st, none)
  | _, _ => (st, some "record bytes do not decode under the path collection")

/-- `HandleCreate`: repo resolution, revision guard (lazily loaded), path
split, dispatch, and — on success — the rev-cache update. -/
def HandleCreate (st : St) (repoDid rev path : String) (orec : OpRecord) (now : Nat) :
    St × Option String :=
  let (st0, rr) := getOrCreateRepo st repoDid
  let (st1, lrev) := revForRepo st0 rr
  if lrev != "" && revLt rev lrev then (st1, none)
  else
    match splitSlash path with
    | [col, rkey] =>
      match dispatchCreate st1 rr col rkey rev orec now with
      | (st2, some e) => (st2, some e)
      | (st2, none) => ({ st2 with revCache := addAssoc st2.revCache rr.id rev }, none)
    | _ => (st1, some ("invalid path in HandleCreate: " ++ path))

/-- `HandleUpdate`: same repo resolution and revision guard as
`HandleCreate`; only `app.bsky.actor.profile` is dispatched (every other
collection's update arm is commented out in the source) and — unlike
`HandleCreate` and `HandleDelete` — the rev cache is NOT updated
afterwards. -/
def HandleUpdate (st : St) (repoDid rev path : String) (orec : OpRecord) :
    St × Option String :=
  let (st0, rr) := getOrCreateRepo st repoDid
  let (st1, lrev) := revForRepo st0 rr
  if lrev != "" && revLt rev lrev then (st1, none)
  else
    match splitSlash path with
    | [col, _rkey] =>
      match col, orec with
      | "app.bsky.actor.profile", OpRecord.profile raw => HandleCreateProfile st1 rr rev raw
      | _, _ => (st1, none)
    | _ => (st1, some ("invalid path in HandleCreate: " ++ path))

/-- `HandleDeletePost`: look up by `(author, rkey)`; absent rows are a
no-op; otherwise delete the row by id. -/
def HandleDeletePost (st : St) (repo : RepoRow) (rkey : String) : St × Option String :=
  match findPost st.db.posts repo.id rkey with
  | none => (st, none)
  | some p =>
    if p.id == 0 then (st, none)
    else ({ st with db := { st.db with posts := st.db.posts.filter (fun q => q.id != p.id) } },
          none)

/-- `HandleDeleteLike`. -/
def HandleDeleteLike (st : St) (repo : RepoRow) (rkey : String) : St × Option String :=
  match st.db.likes.find? (fun l => l.author == repo.id && l.rkey == rkey) with
  | none => (st, none)
  | some l =>
    if l.id == 0 then (st, none)
    else ({ st with db := { st.db with likes := st.db.likes.filter (fun q => q.id != l.id) } },
          none)

/-- `HandleDeleteRepost`. -/
def HandleDeleteRepost (st : St) (repo : RepoRow) (rkey : String) : St × Option String :=
  match st.db.reposts.find? (fun l => l.author == repo.id && l.rkey == rkey) with
  | none => (st, none)
  | some l =>
    if l.id == 0 then (st, none)
    else ({ st with db := { st.db with
            reposts := st.db.reposts.filter (fun q => q.id != l.id) } }, none)

/-- `HandleDeleteFollow`. -/
def HandleDeleteFollow (st : St) (repo : RepoRow) (rkey : String) : St × Option String :=
  match st.db.follows.find? (fun l => l.author == repo.id && l.rkey == rkey) with
  | none => (st, none)
  | some l =>
    if l.id == 0 then (st, none)
    else ({ st with db := { st.db with
            follows := st.db.follows.filter (fun q => q.id != l.id) } }, none)

/-- `HandleDelete`: repo resolution, then the revision guard reading ONLY
the in-memory rev cache (`revCache.Get`, no lazy `sync_infos` load,
unlike `HandleCreate`/`HandleUpdate`), path split, dispatch, and the
rev-cache update.  Unmodelled collections fall to the warn-and-skip
default arm. -/
def HandleDelete (st : St) (repoDid rev path : String) : St × Option String :=
  let (st0, rr) := getOrCreateRepo st repoDid
  let guard :=
    match lookupAssoc st0.revCache rr.id with
    | some lrev => revLt rev lrev
    | none => false
  if guard then (st0, none)
  else
    match splitSlash path with
    | [col, rkey] =>
      let step : St × Option String :=
        match col with
        | "app.bsky.feed.post" => HandleDeletePost st0 rr rkey
        | "app.bsky.feed.like" => HandleDeleteLike st0 rr rkey
        | "app.bsky.feed.repost" => HandleDeleteRepost st0 rr rkey
        | "app.bsky.graph.follow" => HandleDeleteFollow st0 rr rkey
        | _ => (st0, none)
      match step with
      | (st1, some e) => (st1, some e)
      | (st1, none) => ({ st1 with revCache := addAssoc st1.revCache rr.id rev }, none)
    | _ => (st0, some ("invalid path in HandleDelete: " ++ path))

/-! ## Stream reconnect backoff (`sync.go`) -/

/-- `delayForFailureCount`, in seconds: `5 + 2·n` for `n < 5`, else a
flat `30`. -/
def delayForFailureCount (n : Int) : Int :=
  if n < 5 then 5 + 2 * n else 30

/-- The failure-count update of the reconnect loops: a connection held
longer than `failureTimeInterval` (5 s) resets the count to zero,
otherwise it increments.  `elapsed` is the connection hold time in
seconds. -/
def updateFailures (failures : Nat) (elapsed : Nat) : Nat :=
  if 5 < elapsed then 0 else failures + 1

/-! ## Thread paging (`xrpc/unspecced/getPostThreadV2.go`) -/

/-- A thread subtree: a post URI and its reply children (already ordered
as `buildThreadTree` produced them). -/
inductive TTree where
  | node (uri : String) (children : List TTree)
deriving Repr

/-- The URI of a thread node. -/
def TTree.uri : TTree → String
  | .node u _ => u

/-- The children of a thread node. -/
def TTree.children : TTree → List TTree
  | .node _ cs => cs

mutual

/-- `collectReplies`: flatten the descendants of `curnode` into
depth-annotated items, stopping when `below` reaches 0.  The
`branchingFactor` parameter is threaded through the recursion exactly as
in the source — which never reads it: every child is visited. -/
def collectReplies (t : TTree) (depth below branchingFactor : Int) : List (Int × String) :=
  match t with
  | .node _ cs =>
    if below == 0 then []
    else collectChildren cs depth below branchingFactor

/-- The per-child fanout inside `collectReplies` (one result slot per
child, concatenated in child order): the child's item at `depth + 1`
followed by its recursively collected sub-replies. -/
def collectChildren (cs : List TTree) (depth below branchingFactor : Int) :
    List (Int × String) :=
  match cs with
  | [] => []
  | c :: rest =>
    ((depth + 1, c.uri) :: collectReplies c (depth + 1) (below - 1) branchingFactor) ++
      collectChildren rest depth below branchingFactor

end

/-- The thread-items assembly of `HandleGetPostThreadV2`: ancestors of
the anchor (nearest first) at depths −1, −2, …, the anchor at depth 0,
then `collectReplies` when `below > 0`.  The response's
`hasOtherReplies` flag is the literal `false` initialised at the top of
the handler (the `hasOtherReplies = hasMore` assignment is commented
out in the source). -/
def getPostThreadV2Items (ancestorUris : List String) (anchor : TTree)
    (below branchingFactor : Int) : List (Int × String) × Bool :=
  let parents := ancestorUris.enum.map (fun p => (-(Int.ofNat p.1) - 1, p.2))
  let items := parents ++ [((0 : Int), anchor.uri)] ++
    (if below > 0 then collectReplies anchor 0 below branchingFactor else [])
  (items, false)

/-! ## Notification listing (`handlers.go` / `listNotifications.go`) -/

/-- The row order produced by `ORDER BY created_at DESC`: non-increasing
creation time. -/
def createdDescOrder (a b : NotifRow) : Prop :=
  b.createdAt ≤ a.createdAt

instance : DecidableRel createdDescOrder := fun a b =>
  inferInstanceAs (Decidable (b.createdAt ≤ a.createdAt))

/-- `ORDER BY created_at DESC` (any sort realising `createdDescOrder`). -/
def sortByCreatedDesc (l : List NotifRow) : List NotifRow :=
  l.insertionSort createdDescOrder

/-- The shared query of `handleGetNotifications` and
`HandleListNotifications`: `SELECT * FROM notifications WHERE "for" = ?
[AND id < cursor] ORDER BY created_at DESC LIMIT limit`, returning the
page and the next cursor (the last returned row's id, `0` for an empty
page). -/
def listNotificationsQuery (db : Db) (forId : Nat) (cursor : Nat) (limit : Nat) :
    List NotifRow × Nat :=
  let rows := db.notifications.filter
    (fun n => n.forId == forId && (cursor == 0 || n.id < cursor))
  let page := (sortByCreatedDesc rows).take limit
  let nextCursor := match page.getLast? with
    | some n => n.id
    | none => 0
  (page, nextCursor)

/-! ## Specification predicates -/

/-- Well-formed post ids: the serial counter and every stored post id are
positive (Postgres serials start at 1; gorm treats id 0 as "absent"). -/
def posWF (db : Db) : Prop :=
  0 < db.nextPostId ∧ ∀ p ∈ db.posts, 0 < p.id

instance (db : Db) : Decidable (posWF db) :=
  inferInstanceAs (Decidable (0 < db.nextPostId ∧ ∀ p ∈ db.posts, 0 < p.id))

/-- The number of notification rows of a given kind. -/
def countKind (l : List NotifRow) (k : String) : Nat :=
  (l.filter (fun n => n.kind == k)).length

/-- The effect frame of the mention loop: only mention notifications for
the principal are appended; every other component is untouched. -/
def MFrame (a b : St) : Prop :=
  b.db.posts = a.db.posts ∧ b.db.likes = a.db.likes ∧ b.db.reposts = a.db.reposts ∧
  b.db.follows = a.db.follows ∧ b.db.nextPostId = a.db.nextPostId ∧
  b.postInfoCache = a.postInfoCache ∧ b.revCache = a.revCache ∧
  b.relevantDids = a.relevantDids ∧ b.myrepoId = a.myrepoId ∧
  ∃ tl, b.db.notifications = a.db.notifications ++ tl ∧
    ∀ n ∈ tl, n.kind = NotifKindMention ∧ n.forId = a.myrepoId

/-! ## Concrete states shared by scenario theorems and witnesses -/

/-- An empty database with the principal repo (`did:plc:me`, id 1)
registered. -/
def baseDb : Db :=
  { repos := [{ id := 1, did := "did:plc:me" }], posts := [], likes := [], reposts := [],
    follows := [], profiles := [], notifications := [], syncInfos := [],
    nextRepoId := 2, nextPostId := 1, nextLikeId := 1, nextRepostId := 1,
    nextFollowId := 1, nextProfileId := 1, nextNotifId := 1 }

/-- A cold-started backend: empty caches, principal plus one followed
account in the relevance set. -/
def baseSt : St :=
  { db := baseDb, revCache := [], postInfoCache := [],
    relevantDids := ["did:plc:me", "did:plc:alice"], myrepoId := 1 }

/-- A plain (non-reply, no-embed, no-facet) post record. -/
def plainPost : FeedPost := { reply := none, embed := none, facets := [] }

/-- The stale-revision scenario, step 1: create `(did:plc:alice, r1)` at
rev `"2"`. -/
def c1AfterCreate : St × Option String :=
  HandleCreate baseSt "did:plc:alice" "2" "app.bsky.feed.post/r1"
    (OpRecord.post plainPost [7] "cid1") 100

/-- The stale-revision scenario, step 2: delete the same record at the
older rev `"1"`. -/
def c1AfterDelete : St × Option String :=
  HandleDelete c1AfterCreate.1 "did:plc:alice" "1" "app.bsky.feed.post/r1"

/-- A warm database for the cold-start-delete counterexample: the post
`(did:plc:alice, r1)` is indexed and `sync_infos` persists rev `"2"` for
alice, but the in-memory rev cache is empty. -/
def coldSt : St :=
  { db := { baseDb with
      repos := [{ id := 1, did := "did:plc:me" }, { id := 2, did := "did:plc:alice" }],
      nextRepoId := 3,
      posts := [{ id := 1, author := 2, rkey := "r1", cid := "c", notFound := false,
                  raw := [7], reposting := 0, replyTo := 0, replyToUsr := 0, inThread := 0 }],
      nextPostId := 2,
      syncInfos := [{ repo := 2, followsSynced := false, rev := "2" }] },
    revCache := [], postInfoCache := [], relevantDids := ["did:plc:me"], myrepoId := 1 }

/-- A notification table in which insertion-id order and wall-clock order
disagree (id 1 created at 10, id 2 created at 5), both for recipient 7. -/
def skewDb : Db :=
  { baseDb with
    notifications :=
      [{ id := 1, forId := 7, author := 3, kind := "like",
         source := "at://d/app.bsky.feed.like/a", createdAt := 10 },
       { id := 2, forId := 7, author := 4, kind := "reply",
         source := "at://d/app.bsky.feed.post/b", createdAt := 5 }],
    nextNotifId := 3 }

/-- An anchor post with four direct replies and no deeper descendants. -/
def fourReplyTree : TTree :=
  TTree.node "at://d/app.bsky.feed.post/a"
    [TTree.node "at://d/app.bsky.feed.post/c1" [],
     TTree.node "at://d/app.bsky.feed.post/c2" [],
     TTree.node "at://d/app.bsky.feed.post/c3" [],
     TTree.node "at://d/app.bsky.feed.post/c4" []]

/-- The principal's repo row in the concrete states. -/
def myRepo : RepoRow := { id := 1, did := "did:plc:me" }

/-- A not-relevant third account. -/
def bobRepo : RepoRow := { id := 3, did := "did:plc:bob" }

/-- Three known repos; only the principal and alice are relevant. -/
def relSt : St :=
  { db := { baseDb with
      repos := [{ id := 1, did := "did:plc:me" }, { id := 2, did := "did:plc:alice" },
                { id := 3, did := "did:plc:bob" }],
      nextRepoId := 4 },
    revCache := [], postInfoCache := [],
    relevantDids := ["did:plc:me", "did:plc:alice"], myrepoId := 1 }

/-- A reply record by the non-relevant bob whose parent and root live in
alice's repo. -/
def replyToAliceRec : FeedPost :=
  { reply := some
      { parent := some { uri := "at://did:plc:alice/app.bsky.feed.post/p1" },
        root := some { uri := "at://did:plc:alice/app.bsky.feed.post/p1" } },
    embed := none, facets := [] }

/-- The followed account's repo row in the warm states. -/
def aliceRepo : RepoRow := { id := 2, did := "did:plc:alice" }

/-- A backend whose rev cache already holds rev `"5"` for alice. -/
def warmSt : St :=
  { db := { baseDb with repos := [myRepo, aliceRepo], nextRepoId := 3 },
    revCache := [(2, "5")], postInfoCache := [],
    relevantDids := ["did:plc:me", "did:plc:alice"], myrepoId := 1 }

/-- A placeholder-creation run: resolving a not-yet-seen post URI of
alice inserts a `not_found` placeholder row. -/
def pxSt : St × Except String PostRow :=
  getOrCreatePostBare relSt "at://did:plc:alice/app.bsky.feed.post/px"

/-- A warm backend in which the principal (id 1) has an indexed post
`(did:plc:me, p0)` and alice's repo is registered and relevant. -/
def c10St : St :=
  { db := { baseDb with
      repos := [myRepo, aliceRepo], nextRepoId := 3,
      posts := [{ id := 1, author := 1, rkey := "p0", cid := "c0", notFound := false,
                  raw := [1], reposting := 0, replyTo := 0, replyToUsr := 0,
                  inThread := 0 }],
      nextPostId := 2 },
    revCache := [], postInfoCache := [],
    relevantDids := ["did:plc:me", "did:plc:alice"], myrepoId := 1 }

/-- Alice's reply record whose parent and root are the principal's post
`p0`. -/
def c10Rec : FeedPost :=
  { reply := some
      { parent := some { uri := "at://did:plc:me/app.bsky.feed.post/p0" },
        root := some { uri := "at://did:plc:me/app.bsky.feed.post/p0" } },
    embed := none, facets := [] }

/-- A post record carrying two mention facets of the principal. -/
def twoMentionRec : FeedPost :=
  { reply := none, embed := none,
    facets := [{ features := [{ mentionDid := some "did:plc:me" }] },
               { features := [{ mentionDid := some "did:plc:me" }] }] }

/-! # Basic lemmas -/

theorem lookupAssoc_addAssoc_self {α β : Type} [BEq α] [LawfulBEq α]
    (l : List (α × β)) (k : α) (v : β) :
    lookupAssoc (addAssoc l k v) k = some v := by
  simp [lookupAssoc, addAssoc]

theorem getOrCreateRepo_found {st : St} {did : String} {rr : RepoRow}
    (h : st.db.repos.find? (fun r => r.did == did) = some rr) :
    getOrCreateRepo st did = (st, rr) := by
  unfold getOrCreateRepo
  rw [h]

theorem revForRepo_db (st : St) (rr : RepoRow) :
    (revForRepo st rr).1.db = st.db := by
  unfold revForRepo
  cases lookupAssoc st.revCache rr.id with
  | some lrev => rfl
  | none =>
    dsimp only
    split <;> rfl

theorem revForRepo_relevant (st : St) (rr : RepoRow) :
    (revForRepo st rr).1.relevantDids = st.relevantDids := by
  unfold revForRepo
  cases lookupAssoc st.revCache rr.id with
  | some lrev => rfl
  | none =>
    dsimp only
    split <;> rfl

theorem getOrCreateRepo_frame (st : St) (did : String) :
    (getOrCreateRepo st did).1.db.posts = st.db.posts ∧
    (getOrCreateRepo st did).1.db.likes = st.db.likes ∧
    (getOrCreateRepo st did).1.db.reposts = st.db.reposts ∧
    (getOrCreateRepo st did).1.db.follows = st.db.follows ∧
    (getOrCreateRepo st did).1.db.profiles = st.db.profiles ∧
    (getOrCreateRepo st did).1.db.notifications = st.db.notifications ∧
    (getOrCreateRepo st did).1.db.syncInfos = st.db.syncInfos ∧
    (getOrCreateRepo st did).1.db.nextPostId = st.db.nextPostId ∧
    (getOrCreateRepo st did).1.db.nextLikeId = st.db.nextLikeId ∧
    (getOrCreateRepo st did).1.db.nextRepostId = st.db.nextRepostId ∧
    (getOrCreateRepo st did).1.db.nextFollowId = st.db.nextFollowId ∧
    (getOrCreateRepo st did).1.db.nextNotifId = st.db.nextNotifId ∧
    (getOrCreateRepo st did).1.postInfoCache = st.postInfoCache ∧
    (getOrCreateRepo st did).1.revCache = st.revCache ∧
    (getOrCreateRepo st did).1.relevantDids = st.relevantDids ∧
    (getOrCreateRepo st did).1.myrepoId = st.myrepoId := by
  unfold getOrCreateRepo
  split <;> simp

theorem getOrCreateRepo_idem (st : St) (did : String) :
    getOrCreateRepo (getOrCreateRepo st did).1 did =
      ((getOrCreateRepo st did).1, (getOrCreateRepo st did).2) := by
  unfold getOrCreateRepo
  cases hf : st.db.repos.find? (fun r => r.did == did) with
  | some r => simp [hf]
  | none =>
    simp only
    rw [List.find?_append, hf]
    simp

theorem getOrCreateRepo_repos_mono (st : St) (did d2 : String) (rr : RepoRow)
    (h : st.db.repos.find? (fun r => r.did == d2) = some rr) :
    (getOrCreateRepo st did).1.db.repos.find? (fun r => r.did == d2) = some rr := by
  unfold getOrCreateRepo
  cases hf : st.db.repos.find? (fun r => r.did == did) with
  | some r => simpa using h
  | none =>
    simp only
    rw [List.find?_append, h]
    rfl


theorem getOrCreatePostBare_frame (st : St) (uri : String) :
    (getOrCreatePostBare st uri).1.db.likes = st.db.likes ∧
    (getOrCreatePostBare st uri).1.db.reposts = st.db.reposts ∧
    (getOrCreatePostBare st uri).1.db.follows = st.db.follows ∧
    (getOrCreatePostBare st uri).1.db.profiles = st.db.profiles ∧
    (getOrCreatePostBare st uri).1.db.notifications = st.db.notifications ∧
    (getOrCreatePostBare st uri).1.db.syncInfos = st.db.syncInfos ∧
    (getOrCreatePostBare st uri).1.db.nextLikeId = st.db.nextLikeId ∧
    (getOrCreatePostBare st uri).1.db.nextRepostId = st.db.nextRepostId ∧
    (getOrCreatePostBare st uri).1.db.nextFollowId = st.db.nextFollowId ∧
    (getOrCreatePostBare st uri).1.db.nextNotifId = st.db.nextNotifId ∧
    (getOrCreatePostBare st uri).1.revCache = st.revCache ∧
    (getOrCreatePostBare st uri).1.relevantDids = st.relevantDids ∧
    (getOrCreatePostBare st uri).1.myrepoId = st.myrepoId := by
  unfold getOrCreatePostBare
  cases hp : parseAtUri uri with
  | none => simp
  | some v =>
    obtain ⟨did, col, rkey⟩ := v
    simp only
    cases hgr : getOrCreateRepo st did with
    | mk st1 r =>
      have hfr := getOrCreateRepo_frame st did
      rw [hgr] at hfr
      simp only at hfr
      cases htl : tryLoadPostInfo st1.db r.id rkey with
      | some p => simp_all
      | none => simp_all

theorem getOrCreatePostBare_findPost_mono (st : St) (uri : String) (a : Nat) (rk : String)
    (x : PostRow) (h : findPost st.db.posts a rk = some x) :
    findPost (getOrCreatePostBare st uri).1.db.posts a rk = some x := by
  unfold getOrCreatePostBare
  cases hp : parseAtUri uri with
  | none => simpa using h
  | some v =>
    obtain ⟨did, col, rkey⟩ := v
    simp only
    cases hgr : getOrCreateRepo st did with
    | mk st1 r =>
      have hfr := (getOrCreateRepo_frame st did).1
      rw [hgr] at hfr
      simp only at hfr
      cases htl : tryLoadPostInfo st1.db r.id rkey with
      | some p => simp only [hfr]; exact h
      | none =>
        simp only [findPost, List.find?_append]
        rw [show st1.db.posts.find? (fun p => p.author == a && p.rkey == rk) = some x by
          rw [hfr]; exact h]
        rfl

theorem getOrCreatePostBare_checkPE_false (st : St) (uri : String) (a : Nat) (rk : String)
    (h : checkPostExists st.db a rk = false) :
    checkPostExists (getOrCreatePostBare st uri).1.db a rk = false := by
  cases hf : findPost st.db.posts a rk with
  | some x =>
    have h2 := getOrCreatePostBare_findPost_mono st uri a rk x hf
    unfold checkPostExists at h ⊢
    rw [hf] at h
    rw [h2]
    exact h
  | none =>
    unfold getOrCreatePostBare
    cases hp : parseAtUri uri with
    | none => exact h
    | some v =>
      obtain ⟨did, col, rkey⟩ := v
      simp only
      cases hgr : getOrCreateRepo st did with
      | mk st1 r =>
        have hfr := (getOrCreateRepo_frame st did).1
        rw [hgr] at hfr
        simp only at hfr
        cases htl : tryLoadPostInfo st1.db r.id rkey with
        | some p =>
          show checkPostExists st1.db a rk = false
          unfold checkPostExists
          have hX : findPost st1.db.posts a rk = none := by rw [findPost, hfr]; exact hf
          rw [hX]
        | none =>
          unfold checkPostExists
          simp only [findPost, List.find?_append]
          rw [show st1.db.posts.find? (fun p => p.author == a && p.rkey == rk) = none by
            rw [hfr]; exact hf]
          simp only [Option.none_or]
          split
          · rename_i p2 hp2
            have hq := List.mem_of_find?_eq_some hp2
            simp only [List.mem_singleton] at hq
            subst hq
            simp
          · rfl

theorem getOrCreatePostBare_posWF (st : St) (uri : String) (h : posWF st.db) :
    posWF (getOrCreatePostBare st uri).1.db := by
  unfold getOrCreatePostBare
  cases hp : parseAtUri uri with
  | none => exact h
  | some v =>
    obtain ⟨did, col, rkey⟩ := v
    simp only
    cases hgr : getOrCreateRepo st did with
    | mk st1 r =>
      have hfr := getOrCreateRepo_frame st did
      rw [hgr] at hfr
      have hWF1 : posWF st1.db := by
        unfold posWF at h ⊢
        rw [hfr.1, hfr.2.2.2.2.2.2.2.1]
        exact h
      cases htl : tryLoadPostInfo st1.db r.id rkey with
      | some p => exact hWF1
      | none =>
        unfold posWF at hWF1 ⊢
        simp only
        constructor
        · omega
        · intro q hq
          rw [List.mem_append] at hq
          rcases hq with hq | hq
          · exact hWF1.2 q hq
          · simp only [List.mem_singleton] at hq
            subst hq
            exact hWF1.1



theorem lookupAssoc_addAssoc_ne {α β : Type} [BEq α] [LawfulBEq α]
    (l : List (α × β)) (k' k : α) (v : β) (h : k' ≠ k) :
    lookupAssoc (addAssoc l k' v) k = lookupAssoc l k := by
  simp [lookupAssoc, addAssoc, h]

theorem getOrCreatePostBare_eq_badUri {st : St} {uri : String}
    (hp : parseAtUri uri = none) :
    getOrCreatePostBare st uri = (st, Except.error "invalid at uri") := by
  unfold getOrCreatePostBare
  rw [hp]

theorem getOrCreatePostBare_eq_found {st : St} {uri did col rkey : String}
    {st1 : St} {r : RepoRow} {p : PostRow}
    (hp : parseAtUri uri = some (did, col, rkey))
    (hgr : getOrCreateRepo st did = (st1, r))
    (htl : tryLoadPostInfo st1.db r.id rkey = some p) :
    getOrCreatePostBare st uri =
      ({ st1 with postInfoCache := addAssoc st1.postInfoCache uri (p.id, p.author) },
       Except.ok p) := by
  unfold getOrCreatePostBare
  rw [hp]
  dsimp only
  rw [hgr]
  dsimp only
  rw [htl]

theorem getOrCreatePostBare_eq_missing {st : St} {uri did col rkey : String}
    {st1 : St} {r : RepoRow}
    (hp : parseAtUri uri = some (did, col, rkey))
    (hgr : getOrCreateRepo st did = (st1, r))
    (htl : tryLoadPostInfo st1.db r.id rkey = none) :
    getOrCreatePostBare st uri =
      ({ st1 with
          db := { st1.db with
            posts := st1.db.posts ++
              [{ id := st1.db.nextPostId, author := r.id, rkey := rkey, cid := "",
                 notFound := true, raw := [], reposting := 0, replyTo := 0,
                 replyToUsr := 0, inThread := 0 }],
            nextPostId := st1.db.nextPostId + 1 },
          postInfoCache := addAssoc st1.postInfoCache uri
            (st1.db.nextPostId, r.id) },
       Except.ok
         { id := st1.db.nextPostId, author := r.id, rkey := rkey, cid := "",
           notFound := true, raw := [], reposting := 0, replyTo := 0,
           replyToUsr := 0, inThread := 0 }) := by
  unfold getOrCreatePostBare
  rw [hp]
  dsimp only
  rw [hgr]
  dsimp only
  rw [htl]

theorem postInfoForUri_eq_hit {st : St} {uri : String} {v : Nat × Nat}
    (hl : lookupAssoc st.postInfoCache uri = some v) :
    postInfoForUri st uri = (st, Except.ok v) := by
  unfold postInfoForUri
  rw [hl]

theorem postInfoForUri_eq_miss {st : St} {uri : String}
    (hl : lookupAssoc st.postInfoCache uri = none) :
    postInfoForUri st uri =
      (match getOrCreatePostBare st uri with
        | (st1, Except.ok p) => (st1, Except.ok (p.id, p.author))
        | (st1, Except.error e) => (st1, Except.error e)) := by
  unfold postInfoForUri
  rw [hl]

theorem getOrCreatePostBare_cache_self (st : St) (uri : String) (p : PostRow)
    (h : (getOrCreatePostBare st uri).2 = Except.ok p) :
    lookupAssoc (getOrCreatePostBare st uri).1.postInfoCache uri = some (p.id, p.author) := by
  cases hp : parseAtUri uri with
  | none =>
    rw [getOrCreatePostBare_eq_badUri hp] at h
    exact absurd h (by simp)
  | some v =>
    obtain ⟨did, col, rkey⟩ := v
    cases hgr : getOrCreateRepo st did with
    | mk st1 r =>
      cases htl : tryLoadPostInfo st1.db r.id rkey with
      | some q =>
        rw [getOrCreatePostBare_eq_found hp hgr htl] at h ⊢
        simp only [Except.ok.injEq] at h
        subst h
        exact lookupAssoc_addAssoc_self _ _ _
      | none =>
        rw [getOrCreatePostBare_eq_missing hp hgr htl] at h ⊢
        simp only [Except.ok.injEq] at h
        subst h
        exact lookupAssoc_addAssoc_self _ _ _

theorem getOrCreatePostBare_cache_mono (st : St) (uri u : String) (v : Nat × Nat)
    (h : lookupAssoc st.postInfoCache u = some v) (hne : uri ≠ u) :
    lookupAssoc (getOrCreatePostBare st uri).1.postInfoCache u = some v := by
  cases hp : parseAtUri uri with
  | none => rw [getOrCreatePostBare_eq_badUri hp]; exact h
  | some w =>
    obtain ⟨did, col, rkey⟩ := w
    cases hgr : getOrCreateRepo st did with
    | mk st1 r =>
      have hfr := (getOrCreateRepo_frame st did).2.2.2.2.2.2.2.2.2.2.2.2.1
      rw [hgr] at hfr
      cases htl : tryLoadPostInfo st1.db r.id rkey with
      | some p =>
        rw [getOrCreatePostBare_eq_found hp hgr htl]
        show lookupAssoc (addAssoc st1.postInfoCache uri (p.id, p.author)) u = some v
        rw [lookupAssoc_addAssoc_ne _ _ _ _ hne, hfr]
        exact h
      | none =>
        rw [getOrCreatePostBare_eq_missing hp hgr htl]
        show lookupAssoc (addAssoc st1.postInfoCache uri _) u = some v
        rw [lookupAssoc_addAssoc_ne _ _ _ _ hne, hfr]
        exact h

theorem postInfoForUri_cache_self (st : St) (uri : String) (v : Nat × Nat)
    (h : (postInfoForUri st uri).2 = Except.ok v) :
    lookupAssoc (postInfoForUri st uri).1.postInfoCache uri = some v := by
  cases hl : lookupAssoc st.postInfoCache uri with
  | some w =>
    rw [postInfoForUri_eq_hit hl] at h ⊢
    simp only [Except.ok.injEq] at h
    subst h
    exact hl
  | none =>
    rw [postInfoForUri_eq_miss hl] at h ⊢
    cases hb : getOrCreatePostBare st uri with
    | mk st1 er =>
      rw [hb] at h
      cases er with
      | error e => simp at h
      | ok p =>
        dsimp only at h ⊢
        simp only [Except.ok.injEq] at h
        subst h
        have h2 := getOrCreatePostBare_cache_self st uri p (by rw [hb])
        rw [hb] at h2
        exact h2

theorem postInfoForUri_cache_mono (st : St) (uri u : String) (v : Nat × Nat)
    (h : lookupAssoc st.postInfoCache u = some v) :
    lookupAssoc (postInfoForUri st uri).1.postInfoCache u = some v := by
  cases hl : lookupAssoc st.postInfoCache uri with
  | some w => rw [postInfoForUri_eq_hit hl]; exact h
  | none =>
    have hne : uri ≠ u := by
      intro he
      rw [he] at hl
      rw [hl] at h
      exact absurd h (by simp)
    rw [postInfoForUri_eq_miss hl]
    have hm := getOrCreatePostBare_cache_mono st uri u v h hne
    cases hb : getOrCreatePostBare st uri with
    | mk st1 er =>
      rw [hb] at hm
      cases er <;> (dsimp only; exact hm)

theorem postInfoForUri_idem (st : St) (uri : String) (st1 : St) (v : Nat × Nat)
    (h : postInfoForUri st uri = (st1, Except.ok v)) :
    postInfoForUri st1 uri = (st1, Except.ok v) := by
  have hc : lookupAssoc st1.postInfoCache uri = some v := by
    have h2 := postInfoForUri_cache_self st uri v (by rw [h])
    rw [h] at h2
    exact h2
  exact postInfoForUri_eq_hit hc


theorem findPost_replaceFirstPost (l : List PostRow) (a : Nat) (rk : String) (nw : PostRow)
    (hkey : (nw.author == a && nw.rkey == rk) = true)
    (h : findPost l a rk ≠ none) :
    findPost (replaceFirstPost l a rk nw) a rk = some nw := by
  induction l with
  | nil => simp [findPost] at h
  | cons q qs ih =>
    by_cases hq : (q.author == a && q.rkey == rk) = true
    · unfold replaceFirstPost
      rw [if_pos hq]
      unfold findPost
      rw [List.find?_cons, hkey]
    · unfold replaceFirstPost
      rw [if_neg hq]
      unfold findPost at h ⊢
      rw [List.find?_cons] at h ⊢
      rw [Bool.of_not_eq_true hq] at h ⊢
      exact ih h

theorem mem_replaceFirstPost (l : List PostRow) (a : Nat) (rk : String) (nw q : PostRow)
    (h : q ∈ replaceFirstPost l a rk nw) : q ∈ l ∨ q = nw := by
  induction l with
  | nil => simp [replaceFirstPost] at h
  | cons x xs ih =>
    unfold replaceFirstPost at h
    split at h
    · rcases List.mem_cons.mp h with h1 | h1
      · exact Or.inr h1
      · exact Or.inl (List.mem_cons_of_mem _ h1)
    · rcases List.mem_cons.mp h with h1 | h1
      · exact Or.inl (h1 ▸ List.mem_cons_self _ _)
      · rcases ih h1 with h2 | h2
        · exact Or.inl (List.mem_cons_of_mem _ h2)
        · exact Or.inr h2

theorem doPostCreate_spec (db : Db) (p : PostRow) :
    findPost (doPostCreate db p).1.posts p.author p.rkey =
      some { p with id := (doPostCreate db p).2 } ∧
    (doPostCreate db p).1.likes = db.likes ∧
    (doPostCreate db p).1.reposts = db.reposts ∧
    (doPostCreate db p).1.follows = db.follows ∧
    (doPostCreate db p).1.profiles = db.profiles ∧
    (doPostCreate db p).1.notifications = db.notifications ∧
    (doPostCreate db p).1.syncInfos = db.syncInfos ∧
    (doPostCreate db p).1.nextLikeId = db.nextLikeId ∧
    (doPostCreate db p).1.nextRepostId = db.nextRepostId ∧
    (doPostCreate db p).1.nextFollowId = db.nextFollowId ∧
    (doPostCreate db p).1.nextNotifId = db.nextNotifId ∧
    (posWF db → 0 < (doPostCreate db p).2 ∧ posWF (doPostCreate db p).1) := by
  unfold doPostCreate
  cases hf : findPost db.posts p.author p.rkey with
  | some old =>
    dsimp only
    refine ⟨?_, rfl, rfl, rfl, rfl, rfl, rfl, rfl, rfl, rfl, rfl, ?_⟩
    · exact findPost_replaceFirstPost db.posts p.author p.rkey _ (by simp)
        (by rw [hf]; exact fun hx => Option.noConfusion hx)
    · intro hWF
      have hold : 0 < old.id := hWF.2 old (List.mem_of_find?_eq_some hf)
      refine ⟨hold, hWF.1, ?_⟩
      intro q hq
      rcases mem_replaceFirstPost _ _ _ _ _ hq with h1 | h1
      · exact hWF.2 q h1
      · rw [h1]
        exact hold
  | none =>
    dsimp only
    refine ⟨?_, rfl, rfl, rfl, rfl, rfl, rfl, rfl, rfl, rfl, rfl, ?_⟩
    · unfold findPost at hf ⊢
      rw [List.find?_append, hf]
      simp
    · intro hWF
      refine ⟨hWF.1, Nat.succ_pos _, ?_⟩
      intro q hq
      rw [List.mem_append] at hq
      rcases hq with hq | hq
      · exact hWF.2 q hq
      · simp only [List.mem_singleton] at hq
        rw [hq]
        exact hWF.1

theorem AddNotification_frame (st : St) (forId author : Nat) (source kind : String)
    (now : Nat) :
    (AddNotification st forId author source kind now).db.posts = st.db.posts ∧
    (AddNotification st forId author source kind now).db.likes = st.db.likes ∧
    (AddNotification st forId author source kind now).db.reposts = st.db.reposts ∧
    (AddNotification st forId author source kind now).db.follows = st.db.follows ∧
    (AddNotification st forId author source kind now).db.nextPostId = st.db.nextPostId ∧
    (AddNotification st forId author source kind now).postInfoCache = st.postInfoCache ∧
    (AddNotification st forId author source kind now).revCache = st.revCache ∧
    (AddNotification st forId author source kind now).relevantDids = st.relevantDids ∧
    (AddNotification st forId author source kind now).myrepoId = st.myrepoId ∧
    (AddNotification st forId author source kind now).db.notifications =
      st.db.notifications ++
        [{ id := st.db.nextNotifId, forId := forId, author := author,
           kind := kind, source := source, createdAt := now }] := by
  unfold AddNotification
  exact ⟨rfl, rfl, rfl, rfl, rfl, rfl, rfl, rfl, rfl, rfl⟩

theorem countKind_append (l1 l2 : List NotifRow) (k : String) :
    countKind (l1 ++ l2) k = countKind l1 k + countKind l2 k := by
  simp [countKind, List.filter_append]


theorem MFrame.refl' (a : St) : MFrame a a :=
  ⟨rfl, rfl, rfl, rfl, rfl, rfl, rfl, rfl, rfl, [], by simp, by simp⟩

theorem MFrame.trans' {a b c : St} (h1 : MFrame a b) (h2 : MFrame b c) : MFrame a c := by
  obtain ⟨p1, l1, r1, f1, n1, c1, v1, d1, m1, t1, ht1, hk1⟩ := h1
  obtain ⟨p2, l2, r2, f2, n2, c2, v2, d2, m2, t2, ht2, hk2⟩ := h2
  refine ⟨p2.trans p1, l2.trans l1, r2.trans r1, f2.trans f1, n2.trans n1,
    c2.trans c1, v2.trans v1, d2.trans d1, m2.trans m1, t1 ++ t2, ?_, ?_⟩
  · rw [ht2, ht1, List.append_assoc]
  · intro n hn
    rcases List.mem_append.mp hn with hn | hn
    · exact hk1 n hn
    · obtain ⟨hka, hkb⟩ := hk2 n hn
      exact ⟨hka, hkb.trans m1⟩

theorem foldl_mframe {α : Type} (step : St → α → St)
    (hstep : ∀ s x, MFrame s (step s x)) :
    ∀ (l : List α) (s : St), MFrame s (l.foldl step s) := by
  intro l
  induction l with
  | nil => intro s; exact MFrame.refl' s
  | cons x xs ih =>
    intro s
    exact MFrame.trans' (hstep s x) (ih (step s x))

theorem processMentions_mframe (st : St) (facets : List Facet) (pAuthor : Nat)
    (uri : String) (now : Nat) :
    MFrame st (processMentions st facets pAuthor uri now) := by
  unfold processMentions
  apply foldl_mframe
  intro s f
  apply foldl_mframe
  intro s2 feat
  cases hmd : feat.mentionDid with
  | none => exact MFrame.refl' s2
  | some mdid =>
    dsimp only
    cases hgr : getOrCreateRepo s2 mdid with
    | mk s3 mrepo =>
      have hfr := getOrCreateRepo_frame s2 mdid
      rw [hgr] at hfr
      dsimp only at hfr
      obtain ⟨g1, g2, g3, g4, -, g6, -, g8, -, -, -, -, g13, g14, g15, g16⟩ := hfr
      have hbase : MFrame s2 s3 :=
        ⟨g1, g2, g3, g4, g8, g13, g14, g15, g16, [], by simp [g6], by simp⟩
      by_cases hid : (mrepo.id == s3.myrepoId) = true
      · rw [if_pos hid]
        refine MFrame.trans' hbase ?_
        have haf := AddNotification_frame s3 s3.myrepoId pAuthor uri NotifKindMention now
        obtain ⟨a1, a2, a3, a4, a5, a6, a7, a8, a9, a10⟩ := haf
        exact ⟨a1, a2, a3, a4, a5, a6, a7, a8, a9, [_], a10, by simp [NotifKindMention]⟩
      · rw [if_neg hid]
        exact hbase


theorem postIDForUri_eq {st : St} {uri : String} {st1 : St} {v : Nat × Nat}
    (h : postInfoForUri st uri = (st1, Except.ok v)) :
    postIDForUri st uri = (st1, Except.ok v.1) := by
  unfold postIDForUri
  rw [h]

theorem postIDForUri_eq_err {st : St} {uri : String} {st1 : St} {e : String}
    (h : postInfoForUri st uri = (st1, Except.error e)) :
    postIDForUri st uri = (st1, Except.error e) := by
  unfold postIDForUri
  rw [h]

theorem processReply_eq_noparent {st : St} {rr : ReplyRef} {p : PostRow}
    {uri : String} {now : Nat} (h : rr.parent = none) :
    processReply st rr p uri now = (st, Except.ok p) := by
  unfold processReply
  rw [h]

theorem processReply_eq_ok {st : St} {rr : ReplyRef} {pu ru : StrongRef}
    {p : PostRow} {uri : String} {now : Nat} {st1 st2 : St}
    {pid pa tid ta : Nat}
    (hpar : rr.parent = some pu) (hroot : rr.root = some ru)
    (h1 : postInfoForUri st pu.uri = (st1, Except.ok (pid, pa)))
    (h2 : postInfoForUri st1 ru.uri = (st2, Except.ok (tid, ta))) :
    processReply st rr p uri now =
      ((if pa == st2.myrepoId
          then AddNotification st2 st2.myrepoId p.author uri NotifKindReply now
          else st2),
       Except.ok { p with replyTo := pid, replyToUsr := pa, inThread := tid }) := by
  unfold processReply
  rw [hpar]
  dsimp only
  rw [hroot]
  dsimp only
  rw [h1]
  dsimp only
  rw [postIDForUri_eq h2]
  dsimp only
  by_cases hid : (pa == st2.myrepoId) = true
  · rw [if_pos hid, if_pos hid]
  · rw [if_neg hid, if_neg hid]

theorem processEmbed_eq_none {st : St} {p : PostRow} :
    processEmbed st none p = (st, Except.ok p) := by
  unfold processEmbed
  rfl

theorem processEmbed_eq_skip {st : St} {e : PostEmbed} {p : PostRow}
    (h : (embedQuoteUri e != "" && containsSubstr (embedQuoteUri e) "app.bsky.feed.post")
      = false) :
    processEmbed st (some e) p = (st, Except.ok p) := by
  unfold processEmbed
  dsimp only
  rw [if_neg (by simp [h])]

theorem processEmbed_eq_ok {st : St} {e : PostEmbed} {p : PostRow} {st1 : St}
    {rp rpa : Nat}
    (h : (embedQuoteUri e != "" && containsSubstr (embedQuoteUri e) "app.bsky.feed.post")
      = true)
    (h1 : postInfoForUri st (embedQuoteUri e) = (st1, Except.ok (rp, rpa))) :
    processEmbed st (some e) p = (st1, Except.ok { p with reposting := rp }) := by
  unfold processEmbed
  dsimp only
  rw [if_pos h, postIDForUri_eq h1]


theorem processReply_post_fields {st : St} {rr : ReplyRef} {p : PostRow}
    {uri : String} {now : Nat} {st1 : St} {p1 : PostRow}
    (h : processReply st rr p uri now = (st1, Except.ok p1)) :
    p1.author = p.author ∧ p1.rkey = p.rkey ∧ p1.notFound = p.notFound ∧
    p1.cid = p.cid ∧ p1.raw = p.raw := by
  unfold processReply at h
  cases hpar : rr.parent with
  | none =>
    rw [hpar] at h
    dsimp only at h
    obtain ⟨-, h2⟩ := Prod.mk.injEq .. ▸ h
    cases h2
    exact ⟨rfl, rfl, rfl, rfl, rfl⟩
  | some pu =>
    rw [hpar] at h
    dsimp only at h
    cases hroot : rr.root with
    | none => rw [hroot] at h; exact absurd (congrArg Prod.snd h) (by simp)
    | some ru =>
      rw [hroot] at h
      dsimp only at h
      cases hpi : postInfoForUri st pu.uri with
      | mk stA er =>
        rw [hpi] at h
        cases er with
        | error e => exact absurd (congrArg Prod.snd h) (by simp)
        | ok v =>
          obtain ⟨pid, pa⟩ := v
          dsimp only at h
          cases hpid : postIDForUri stA ru.uri with
          | mk stB er2 =>
            rw [hpid] at h
            cases er2 with
            | error e => exact absurd (congrArg Prod.snd h) (by simp)
            | ok tid =>
              dsimp only at h
              split at h <;>
                (have h2 := congrArg Prod.snd h
                 simp only [Except.ok.injEq] at h2
                 cases h2
                 exact ⟨rfl, rfl, rfl, rfl, rfl⟩)

theorem processEmbed_post_fields {st : St} {embed : Option PostEmbed} {p : PostRow}
    {st1 : St} {p1 : PostRow}
    (h : processEmbed st embed p = (st1, Except.ok p1)) :
    p1.author = p.author ∧ p1.rkey = p.rkey ∧ p1.notFound = p.notFound ∧
    p1.cid = p.cid ∧ p1.raw = p.raw ∧ p1.replyTo = p.replyTo ∧
    p1.replyToUsr = p.replyToUsr ∧ p1.inThread = p.inThread := by
  unfold processEmbed at h
  cases embed with
  | none =>
    dsimp only at h
    have h2 := congrArg Prod.snd h
    simp only [Except.ok.injEq] at h2
    cases h2
    exact ⟨rfl, rfl, rfl, rfl, rfl, rfl, rfl, rfl⟩
  | some e =>
    dsimp only at h
    split at h
    · cases hpi : postInfoForUri st (embedQuoteUri e) with
      | mk stA er =>
        rw [postIDForUri] at h
        rw [hpi] at h
        cases er with
        | error e2 => simp only at h; exact absurd (congrArg Prod.snd h) (by simp)
        | ok v =>
          simp only at h
          have h2 := congrArg Prod.snd h
          simp only [Except.ok.injEq] at h2
          cases h2
          exact ⟨rfl, rfl, rfl, rfl, rfl, rfl, rfl, rfl⟩
    · have h2 := congrArg Prod.snd h
      simp only [Except.ok.injEq] at h2
      cases h2
      exact ⟨rfl, rfl, rfl, rfl, rfl, rfl, rfl, rfl⟩

theorem identRelevant_of_authority (rel : List String) (uri a : String)
    (hd : strStarts uri "did:" = false) (hu : strStarts uri "at://" = true)
    (ha : atUriAuthority uri = some a) (hm : a ∈ rel) :
    identRelevant rel uri = true := by
  unfold identRelevant
  rw [hd]
  simp only [Bool.false_eq_true, if_false]
  rw [hu]
  simp only [if_true]
  rw [ha]
  unfold didIsRelevant
  simpa using hm


theorem postInfoForUri_frame (st : St) (uri : String) :
    (postInfoForUri st uri).1.db.likes = st.db.likes ∧
    (postInfoForUri st uri).1.db.reposts = st.db.reposts ∧
    (postInfoForUri st uri).1.db.follows = st.db.follows ∧
    (postInfoForUri st uri).1.db.profiles = st.db.profiles ∧
    (postInfoForUri st uri).1.db.notifications = st.db.notifications ∧
    (postInfoForUri st uri).1.db.syncInfos = st.db.syncInfos ∧
    (postInfoForUri st uri).1.db.nextLikeId = st.db.nextLikeId ∧
    (postInfoForUri st uri).1.db.nextRepostId = st.db.nextRepostId ∧
    (postInfoForUri st uri).1.db.nextFollowId = st.db.nextFollowId ∧
    (postInfoForUri st uri).1.db.nextNotifId = st.db.nextNotifId ∧
    (postInfoForUri st uri).1.revCache = st.revCache ∧
    (postInfoForUri st uri).1.relevantDids = st.relevantDids ∧
    (postInfoForUri st uri).1.myrepoId = st.myrepoId := by
  cases hl : lookupAssoc st.postInfoCache uri with
  | some v =>
    rw [postInfoForUri_eq_hit hl]
    exact ⟨rfl, rfl, rfl, rfl, rfl, rfl, rfl, rfl, rfl, rfl, rfl, rfl, rfl⟩
  | none =>
    rw [postInfoForUri_eq_miss hl]
    have hfr := getOrCreatePostBare_frame st uri
    cases hb : getOrCreatePostBare st uri with
    | mk st1 er =>
      rw [hb] at hfr
      cases er <;> exact hfr

theorem postInfoForUri_findPost_mono (st : St) (uri : String) (a : Nat) (rk : String)
    (x : PostRow) (h : findPost st.db.posts a rk = some x) :
    findPost (postInfoForUri st uri).1.db.posts a rk = some x := by
  cases hl : lookupAssoc st.postInfoCache uri with
  | some v => rw [postInfoForUri_eq_hit hl]; exact h
  | none =>
    rw [postInfoForUri_eq_miss hl]
    have hm := getOrCreatePostBare_findPost_mono st uri a rk x h
    cases hb : getOrCreatePostBare st uri with
    | mk st1 er =>
      rw [hb] at hm
      cases er <;> exact hm

theorem postInfoForUri_checkPE_false (st : St) (uri : String) (a : Nat) (rk : String)
    (h : checkPostExists st.db a rk = false) :
    checkPostExists (postInfoForUri st uri).1.db a rk = false := by
  cases hl : lookupAssoc st.postInfoCache uri with
  | some v => rw [postInfoForUri_eq_hit hl]; exact h
  | none =>
    rw [postInfoForUri_eq_miss hl]
    have hm := getOrCreatePostBare_checkPE_false st uri a rk h
    cases hb : getOrCreatePostBare st uri with
    | mk st1 er =>
      rw [hb] at hm
      cases er <;> exact hm

theorem postInfoForUri_posWF (st : St) (uri : String) (h : posWF st.db) :
    posWF (postInfoForUri st uri).1.db := by
  cases hl : lookupAssoc st.postInfoCache uri with
  | some v => rw [postInfoForUri_eq_hit hl]; exact h
  | none =>
    rw [postInfoForUri_eq_miss hl]
    have hm := getOrCreatePostBare_posWF st uri h
    cases hb : getOrCreatePostBare st uri with
    | mk st1 er =>
      rw [hb] at hm
      cases er <;> exact hm


theorem doPostCreate_id_of_found {db : Db} {p old : PostRow}
    (h : findPost db.posts p.author p.rkey = some old) :
    (doPostCreate db p).2 = old.id := by
  unfold doPostCreate
  rw [h]

theorem processReply_findPost_mono {st : St} {rr : ReplyRef} {p : PostRow}
    {uri : String} {now : Nat} {a : Nat} {rk : String} {x : PostRow}
    (h : findPost st.db.posts a rk = some x) :
    findPost (processReply st rr p uri now).1.db.posts a rk = some x := by
  unfold processReply
  cases hpar : rr.parent with
  | none => exact h
  | some pu =>
    dsimp only
    cases hroot : rr.root with
    | none => exact h
    | some ru =>
      dsimp only
      cases hpi : postInfoForUri st pu.uri with
      | mk stA er =>
        have hA := postInfoForUri_findPost_mono st pu.uri a rk x h
        rw [hpi] at hA
        cases er with
        | error e => exact hA
        | ok v =>
          obtain ⟨pid, pa⟩ := v
          dsimp only
          cases hpi2 : postInfoForUri stA ru.uri with
          | mk stB er2 =>
            have hB := postInfoForUri_findPost_mono stA ru.uri a rk x hA
            rw [hpi2] at hB
            rw [postIDForUri, hpi2]
            cases er2 with
            | error e => exact hB
            | ok v2 =>
              dsimp only
              split
              · show findPost (AddNotification stB _ _ _ _ _).db.posts a rk = some x
                rw [(AddNotification_frame stB _ _ _ _ _).1]
                exact hB
              · exact hB

theorem processEmbed_findPost_mono {st : St} {embed : Option PostEmbed} {p : PostRow}
    {a : Nat} {rk : String} {x : PostRow}
    (h : findPost st.db.posts a rk = some x) :
    findPost (processEmbed st embed p).1.db.posts a rk = some x := by
  unfold processEmbed
  cases embed with
  | none => exact h
  | some e =>
    dsimp only
    split
    · cases hpi : postInfoForUri st (embedQuoteUri e) with
      | mk stA er =>
        have hA := postInfoForUri_findPost_mono st (embedQuoteUri e) a rk x h
        rw [hpi] at hA
        rw [postIDForUri, hpi]
        cases er with
        | error e2 => exact hA
        | ok v => exact hA
    · exact h


theorem processReply_posWF {st : St} {rr : ReplyRef} {p : PostRow}
    {uri : String} {now : Nat} (h : posWF st.db) :
    posWF (processReply st rr p uri now).1.db := by
  unfold processReply
  cases hpar : rr.parent with
  | none => exact h
  | some pu =>
    dsimp only
    cases hroot : rr.root with
    | none => exact h
    | some ru =>
      dsimp only
      cases hpi : postInfoForUri st pu.uri with
      | mk stA er =>
        have hA := postInfoForUri_posWF st pu.uri h
        rw [hpi] at hA
        cases er with
        | error e => exact hA
        | ok v =>
          obtain ⟨pid, pa⟩ := v
          dsimp only
          cases hpi2 : postInfoForUri stA ru.uri with
          | mk stB er2 =>
            have hB := postInfoForUri_posWF stA ru.uri hA
            rw [hpi2] at hB
            rw [postIDForUri, hpi2]
            cases er2 with
            | error e => exact hB
            | ok v2 =>
              dsimp only
              split
              · show posWF (AddNotification stB _ _ _ _ _).db
                unfold posWF at hB ⊢
                rw [(AddNotification_frame stB _ _ _ _ _).1,
                    (AddNotification_frame stB _ _ _ _ _).2.2.2.2.1]
                exact hB
              · exact hB

theorem processEmbed_posWF {st : St} {embed : Option PostEmbed} {p : PostRow}
    (h : posWF st.db) :
    posWF (processEmbed st embed p).1.db := by
  unfold processEmbed
  cases embed with
  | none => exact h
  | some e =>
    dsimp only
    split
    · cases hpi : postInfoForUri st (embedQuoteUri e) with
      | mk stA er =>
        have hA := postInfoForUri_posWF st (embedQuoteUri e) h
        rw [hpi] at hA
        rw [postIDForUri, hpi]
        cases er with
        | error e2 => exact hA
        | ok v => exact hA
    · exact h

theorem getOrCreateRepo_found_after {st : St} {did : String} {st1 : St} {r : RepoRow}
    (h : getOrCreateRepo st did = (st1, r)) :
    st1.db.repos.find? (fun q => q.did == did) = some r := by
  unfold getOrCreateRepo at h
  cases hf : st.db.repos.find? (fun q => q.did == did) with
  | some r2 =>
    rw [hf] at h
    obtain ⟨h1, h2⟩ := Prod.mk.injEq .. ▸ h
    subst h1
    subst h2
    exact hf
  | none =>
    rw [hf] at h
    dsimp only at h
    obtain ⟨h1, h2⟩ := Prod.mk.injEq .. ▸ h
    subst h1
    subst h2
    rw [List.find?_append, hf]
    simp

theorem handleCreatePost_row {st : St} {repo : RepoRow} {rkey : String} {rec : FeedPost}
    {recb : Bytes} {cc : String} {now : Nat} {st' : St}
    (h1 : checkPostExists st.db repo.id rkey = false)
    (h2 : anyRelevantIdents st.relevantDids (reldidsOfPost repo.did rec) = true)
    (h3 : HandleCreatePost st repo rkey rec recb cc now false = (st', none)) :
    ∃ q, findPost st'.db.posts repo.id rkey = some q ∧ q.author = repo.id ∧
      q.rkey = rkey ∧ q.notFound = false ∧ q.raw = recb ∧ q.cid = cc ∧
      (∀ x, findPost st.db.posts repo.id rkey = some x → q.id = x.id) ∧
      (posWF st.db → q.id ≠ 0) := by
  unfold HandleCreatePost at h3
  rw [if_neg (by simp [h1]), if_neg (by simp [h2])] at h3
  dsimp only at h3
  have hstep : ∀ (stA : St) (p1 : PostRow),
      (match rec.reply with
        | none => (st, Except.ok
            { id := 0, author := repo.id, rkey := rkey, cid := cc, notFound := false,
              raw := recb, reposting := 0, replyTo := 0, replyToUsr := 0, inThread := 0 })
        | some rr => processReply st rr
            { id := 0, author := repo.id, rkey := rkey, cid := cc, notFound := false,
              raw := recb, reposting := 0, replyTo := 0, replyToUsr := 0, inThread := 0 }
            ("at://" ++ repo.did ++ "/app.bsky.feed.post/" ++ rkey) now) = (stA, Except.ok p1) →
      p1.author = repo.id ∧ p1.rkey = rkey ∧ p1.notFound = false ∧ p1.raw = recb ∧
        p1.cid = cc ∧
      ((∀ x, findPost st.db.posts repo.id rkey = some x →
        findPost stA.db.posts repo.id rkey = some x) ∧
       (posWF st.db → posWF stA.db)) := by
    intro stA p1 heq
    cases hr : rec.reply with
    | none =>
      rw [hr] at heq
      dsimp only at heq
      have h2' := congrArg Prod.snd heq
      have h1' := congrArg Prod.fst heq
      simp only [Except.ok.injEq] at h2'
      dsimp only at h1'
      cases h2'
      subst h1'
      exact ⟨rfl, rfl, rfl, rfl, rfl, fun x hx => hx, fun hw => hw⟩
    | some rr =>
      rw [hr] at heq
      dsimp only at heq
      have hf := processReply_post_fields heq
      refine ⟨hf.1, hf.2.1, hf.2.2.1, hf.2.2.2.2, hf.2.2.2.1, ?_, ?_⟩
      · intro x hx
        have := @processReply_findPost_mono _ rr
          { id := 0, author := repo.id, rkey := rkey, cid := cc, notFound := false,
            raw := recb, reposting := 0, replyTo := 0, replyToUsr := 0, inThread := 0 }
          ("at://" ++ repo.did ++ "/app.bsky.feed.post/" ++ rkey) now _ _ _ hx
        rw [heq] at this
        exact this
      · intro hw
        have := @processReply_posWF _ rr
          { id := 0, author := repo.id, rkey := rkey, cid := cc, notFound := false,
            raw := recb, reposting := 0, replyTo := 0, replyToUsr := 0, inThread := 0 }
          ("at://" ++ repo.did ++ "/app.bsky.feed.post/" ++ rkey) now hw
        rw [heq] at this
        exact this
  cases hs1 : ((match rec.reply with
    | none => (st, Except.ok
        { id := 0, author := repo.id, rkey := rkey, cid := cc, notFound := false,
          raw := recb, reposting := 0, replyTo := 0, replyToUsr := 0, inThread := 0 })
    | some rr => processReply st rr
        { id := 0, author := repo.id, rkey := rkey, cid := cc, notFound := false,
          raw := recb, reposting := 0, replyTo := 0, replyToUsr := 0, inThread := 0 }
        ("at://" ++ repo.did ++ "/app.bsky.feed.post/" ++ rkey) now) :
      St × Except String PostRow) with
  | mk stA er =>
    rw [hs1] at h3
    cases er with
    | error e => exact absurd (congrArg Prod.snd h3) (by simp)
    | ok p1 =>
      obtain ⟨ha1, ha2, ha3, ha4, ha5, ha6, ha7⟩ := hstep stA p1 hs1
      dsimp only at h3
      cases hpe : processEmbed stA rec.embed p1 with
      | mk stB er2 =>
        rw [hpe] at h3
        cases er2 with
        | error e => exact absurd (congrArg Prod.snd h3) (by simp)
        | ok p2 =>
          dsimp only at h3
          have hf2 := processEmbed_post_fields hpe
          cases hdp : doPostCreate stB.db p2 with
          | mk db3 pid =>
            rw [hdp] at h3
            have hspec := doPostCreate_spec stB.db p2
            rw [hdp] at hspec
            dsimp only at hspec
            have hmf := processMentions_mframe { stB with db := db3 } rec.facets
              p2.author ("at://" ++ repo.did ++ "/app.bsky.feed.post/" ++ rkey) now
            have hfst := congrArg Prod.fst h3
            dsimp only at hfst
            have hauthor : p2.author = repo.id := by rw [hf2.1, ha1]
            have hrkey : p2.rkey = rkey := by rw [hf2.2.1, ha2]
            refine ⟨{ p2 with id := pid }, ?_, hauthor, hrkey,
              by show p2.notFound = false; rw [hf2.2.2.1, ha3],
              by show p2.raw = recb; rw [hf2.2.2.2.2.1, ha4],
              by show p2.cid = cc; rw [hf2.2.2.2.1, ha5], ?_, ?_⟩
            · rw [← hfst]
              show findPost (processMentions { stB with db := db3 } rec.facets p2.author
                ("at://" ++ repo.did ++ "/app.bsky.feed.post/" ++ rkey) now).db.posts
                repo.id rkey = some { p2 with id := pid }
              rw [hmf.1]
              show findPost db3.posts repo.id rkey = some { p2 with id := pid }
              rw [← hauthor, ← hrkey]
              exact hspec.1
            · intro x hx
              have hxa := ha6 x hx
              have hxb := @processEmbed_findPost_mono _ rec.embed p1 _ _ _ hxa
              rw [hpe] at hxb
              show pid = x.id
              have := @doPostCreate_id_of_found stB.db p2 x
                (by rw [hauthor, hrkey]; exact hxb)
              rw [hdp] at this
              exact this
            · intro hw
              have hwA := ha7 hw
              have hwB := @processEmbed_posWF _ rec.embed p1 hwA
              rw [hpe] at hwB
              have hpos := hspec.2.2.2.2.2.2.2.2.2.2.2 hwB
              show pid ≠ 0
              omega


theorem handleCreateLike_eq_dup {st : St} {repo : RepoRow} {rkey : String}
    {rec : SubjectRec} {cc : String} {now : Nat} {v : Nat × Nat}
    (hg : anyRelevantIdents st.relevantDids [repo.did, rec.subjectUri] = true)
    (hpi : postInfoForUri st rec.subjectUri = (st, Except.ok v))
    (hdup : (st.db.likes.any (fun l => l.author == repo.id && l.rkey == rkey)) = true) :
    HandleCreateLike st repo rkey rec cc now = (st, none) := by
  unfold HandleCreateLike
  rw [if_neg (by simp [hg]), hpi]
  obtain ⟨pid, pa⟩ := v
  dsimp only
  rw [if_pos hdup]

theorem HandleCreateLike_idem {st : St} {repo : RepoRow} {rkey : String}
    {rec : SubjectRec} {cc : String} {now : Nat} {st' : St}
    (h : HandleCreateLike st repo rkey rec cc now = (st', none)) :
    HandleCreateLike st' repo rkey rec cc now = (st', none) := by
  by_cases hg : anyRelevantIdents st.relevantDids [repo.did, rec.subjectUri] = true
  · unfold HandleCreateLike at h
    rw [if_neg (by simp [hg])] at h
    cases hpi : postInfoForUri st rec.subjectUri with
    | mk stA er =>
      rw [hpi] at h
      have hrelA : stA.relevantDids = st.relevantDids :=
        (by have q := (postInfoForUri_frame st rec.subjectUri).2.2.2.2.2.2.2.2.2.2.2.1
            rw [hpi] at q
            exact q)
      cases er with
      | error e => exact absurd (congrArg Prod.snd h) (by simp)
      | ok v =>
        obtain ⟨pid, pa⟩ := v
        dsimp only at h
        have hcacheA : lookupAssoc stA.postInfoCache rec.subjectUri = some (pid, pa) := by
          have q := postInfoForUri_cache_self st rec.subjectUri (pid, pa) (by rw [hpi])
          rw [hpi] at q
          exact q
        by_cases hdup : (stA.db.likes.any
            (fun l => l.author == repo.id && l.rkey == rkey)) = true
        · rw [if_pos hdup] at h
          have hst : stA = st' := congrArg Prod.fst h
          subst hst
          exact handleCreateLike_eq_dup (by rw [hrelA]; exact hg)
            (postInfoForUri_eq_hit hcacheA) hdup
        · rw [if_neg hdup] at h
          by_cases hpa : (pa == stA.myrepoId) = true
          · rw [if_pos hpa] at h
            have hst : _ = st' := congrArg Prod.fst h
            dsimp only at hst
            have hrel' : st'.relevantDids = stA.relevantDids := by
              rw [← hst]
              exact (AddNotification_frame _ _ _ _ _ _).2.2.2.2.2.2.2.1
            have hcache' : st'.postInfoCache = stA.postInfoCache := by
              rw [← hst]
              exact (AddNotification_frame _ _ _ _ _ _).2.2.2.2.2.1
            have hlikes' : st'.db.likes = stA.db.likes ++
                [{ id := stA.db.nextLikeId, author := repo.id, rkey := rkey,
                   subject := pid, cid := cc }] := by
              rw [← hst]
              exact (AddNotification_frame _ _ _ _ _ _).2.1
            exact handleCreateLike_eq_dup
              (by rw [hrel', hrelA]; exact hg)
              (postInfoForUri_eq_hit (by rw [hcache']; exact hcacheA))
              (by rw [hlikes']; simp)
          · rw [if_neg hpa] at h
            have hst : _ = st' := congrArg Prod.fst h
            dsimp only at hst
            have hrel' : st'.relevantDids = stA.relevantDids := by rw [← hst]
            have hcache' : st'.postInfoCache = stA.postInfoCache := by rw [← hst]
            have hlikes' : st'.db.likes = stA.db.likes ++
                [{ id := stA.db.nextLikeId, author := repo.id, rkey := rkey,
                   subject := pid, cid := cc }] := by rw [← hst]
            exact handleCreateLike_eq_dup
              (by rw [hrel', hrelA]; exact hg)
              (postInfoForUri_eq_hit (by rw [hcache']; exact hcacheA))
              (by rw [hlikes']; simp)
  · have hgf : anyRelevantIdents st.relevantDids [repo.did, rec.subjectUri] = false :=
      Bool.of_not_eq_true hg
    unfold HandleCreateLike at h
    rw [if_pos (by simp [hgf])] at h
    have hst : st = st' := congrArg Prod.fst h
    subst hst
    unfold HandleCreateLike
    rw [if_pos (by simp [hgf])]

theorem handleCreateRepost_eq_dup {st : St} {repo : RepoRow} {rkey : String}
    {rec : SubjectRec} {now : Nat} {v : Nat × Nat}
    (hg : anyRelevantIdents st.relevantDids [repo.did, rec.subjectUri] = true)
    (hpi : postInfoForUri st rec.subjectUri = (st, Except.ok v))
    (hdup : (st.db.reposts.any (fun l => l.author == repo.id && l.rkey == rkey)) = true) :
    HandleCreateRepost st repo rkey rec now = (st, none) := by
  unfold HandleCreateRepost
  rw [if_neg (by simp [hg]), hpi]
  obtain ⟨pid, pa⟩ := v
  dsimp only
  rw [if_pos hdup]

theorem HandleCreateRepost_idem {st : St} {repo : RepoRow} {rkey : String}
    {rec : SubjectRec} {now : Nat} {st' : St}
    (h : HandleCreateRepost st repo rkey rec now = (st', none)) :
    HandleCreateRepost st' repo rkey rec now = (st', none) := by
  by_cases hg : anyRelevantIdents st.relevantDids [repo.did, rec.subjectUri] = true
  · unfold HandleCreateRepost at h
    rw [if_neg (by simp [hg])] at h
    cases hpi : postInfoForUri st rec.subjectUri with
    | mk stA er =>
      rw [hpi] at h
      have hrelA : stA.relevantDids = st.relevantDids :=
        (by have q := (postInfoForUri_frame st rec.subjectUri).2.2.2.2.2.2.2.2.2.2.2.1
            rw [hpi] at q
            exact q)
      cases er with
      | error e => exact absurd (congrArg Prod.snd h) (by simp)
      | ok v =>
        obtain ⟨pid, pa⟩ := v
        dsimp only at h
        have hcacheA : lookupAssoc stA.postInfoCache rec.subjectUri = some (pid, pa) := by
          have q := postInfoForUri_cache_self st rec.subjectUri (pid, pa) (by rw [hpi])
          rw [hpi] at q
          exact q
        by_cases hdup : (stA.db.reposts.any
            (fun l => l.author == repo.id && l.rkey == rkey)) = true
        · rw [if_pos hdup] at h
          have hst : stA = st' := congrArg Prod.fst h
          subst hst
          exact handleCreateRepost_eq_dup (by rw [hrelA]; exact hg)
            (postInfoForUri_eq_hit hcacheA) hdup
        · rw [if_neg hdup] at h
          by_cases hpa : (pa == stA.myrepoId) = true
          · rw [if_pos hpa] at h
            have hst : _ = st' := congrArg Prod.fst h
            dsimp only at hst
            have hrel' : st'.relevantDids = stA.relevantDids := by
              rw [← hst]
              exact (AddNotification_frame _ _ _ _ _ _).2.2.2.2.2.2.2.1
            have hcache' : st'.postInfoCache = stA.postInfoCache := by
              rw [← hst]
              exact (AddNotification_frame _ _ _ _ _ _).2.2.2.2.2.1
            have hreps' : st'.db.reposts = stA.db.reposts ++
                [{ id := stA.db.nextRepostId, author := repo.id, rkey := rkey,
                   subject := pid }] := by
              rw [← hst]
              exact (AddNotification_frame _ _ _ _ _ _).2.2.1
            exact handleCreateRepost_eq_dup
              (by rw [hrel', hrelA]; exact hg)
              (postInfoForUri_eq_hit (by rw [hcache']; exact hcacheA))
              (by rw [hreps']; simp)
          · rw [if_neg hpa] at h
            have hst : _ = st' := congrArg Prod.fst h
            dsimp only at hst
            have hrel' : st'.relevantDids = stA.relevantDids := by rw [← hst]
            have hcache' : st'.postInfoCache = stA.postInfoCache := by rw [← hst]
            have hreps' : st'.db.reposts = stA.db.reposts ++
                [{ id := stA.db.nextRepostId, author := repo.id, rkey := rkey,
                   subject := pid }] := by rw [← hst]
            exact handleCreateRepost_eq_dup
              (by rw [hrel', hrelA]; exact hg)
              (postInfoForUri_eq_hit (by rw [hcache']; exact hcacheA))
              (by rw [hreps']; simp)
  · have hgf : anyRelevantIdents st.relevantDids [repo.did, rec.subjectUri] = false :=
      Bool.of_not_eq_true hg
    unfold HandleCreateRepost at h
    rw [if_pos (by simp [hgf])] at h
    have hst : st = st' := congrArg Prod.fst h
    subst hst
    unfold HandleCreateRepost
    rw [if_pos (by simp [hgf])]

theorem handleCreateFollow_eq_dup {st : St} {repo : RepoRow} {rkey subj : String}
    {r : RepoRow}
    (hg : anyRelevantIdents st.relevantDids [repo.did, subj] = true)
    (hgr : getOrCreateRepo st subj = (st, r))
    (hdup : (st.db.follows.any (fun l => l.author == repo.id && l.rkey == rkey)) = true) :
    HandleCreateFollow st repo rkey subj = (st, none) := by
  unfold HandleCreateFollow
  rw [if_neg (by simp [hg]), hgr]
  dsimp only
  rw [if_pos hdup]

theorem HandleCreateFollow_idem {st : St} {repo : RepoRow} {rkey subj : String} {st' : St}
    (h : HandleCreateFollow st repo rkey subj = (st', none)) :
    HandleCreateFollow st' repo rkey subj = (st', none) := by
  by_cases hg : anyRelevantIdents st.relevantDids [repo.did, subj] = true
  · unfold HandleCreateFollow at h
    rw [if_neg (by simp [hg])] at h
    cases hgr : getOrCreateRepo st subj with
    | mk st1 r =>
      rw [hgr] at h
      have hrel1 : st1.relevantDids = st.relevantDids := by
        have q := (getOrCreateRepo_frame st subj).2.2.2.2.2.2.2.2.2.2.2.2.2.2.1
        rw [hgr] at q
        exact q
      have hrepos1 : st1.db.repos.find? (fun q => q.did == subj) = some r :=
        getOrCreateRepo_found_after hgr
      dsimp only at h
      by_cases hdup : (st1.db.follows.any
          (fun l => l.author == repo.id && l.rkey == rkey)) = true
      · rw [if_pos hdup] at h
        have hst : st1 = st' := congrArg Prod.fst h
        subst hst
        exact handleCreateFollow_eq_dup (by rw [hrel1]; exact hg)
          (getOrCreateRepo_found hrepos1) hdup
      · rw [if_neg hdup] at h
        have hst : _ = st' := congrArg Prod.fst h
        dsimp only at hst
        have hrel' : st'.relevantDids = st1.relevantDids := by rw [← hst]
        have hrepos' : st'.db.repos = st1.db.repos := by rw [← hst]
        have hfols' : st'.db.follows = st1.db.follows ++
            [{ id := st1.db.nextFollowId, author := repo.id, rkey := rkey,
               subject := r.id }] := by rw [← hst]
        exact handleCreateFollow_eq_dup
          (by rw [hrel', hrel1]; exact hg)
          (getOrCreateRepo_found (by rw [hrepos']; exact hrepos1))
          (by rw [hfols']; simp)
  · have hgf : anyRelevantIdents st.relevantDids [repo.did, subj] = false :=
      Bool.of_not_eq_true hg
    unfold HandleCreateFollow at h
    rw [if_pos (by simp [hgf])] at h
    have hst : st = st' := congrArg Prod.fst h
    subst hst
    unfold HandleCreateFollow
    rw [if_pos (by simp [hgf])]

theorem HandleCreatePost_idem {st : St} {repo : RepoRow} {rkey : String} {rec : FeedPost}
    {recb : Bytes} {cc : String} {now : Nat} {st' : St}
    (hWF : posWF st.db)
    (h : HandleCreatePost st repo rkey rec recb cc now false = (st', none)) :
    HandleCreatePost st' repo rkey rec recb cc now false = (st', none) := by
  by_cases hck : checkPostExists st.db repo.id rkey = true
  · unfold HandleCreatePost at h
    rw [if_pos hck] at h
    have hst : st = st' := congrArg Prod.fst h
    subst hst
    unfold HandleCreatePost
    rw [if_pos hck]
  · have hckf : checkPostExists st.db repo.id rkey = false := Bool.of_not_eq_true hck
    by_cases hg : anyRelevantIdents st.relevantDids (reldidsOfPost repo.did rec) = true
    · obtain ⟨q, hq1, hq2, hq3, hq4, hq5, hq6, hq7, hq8⟩ :=
        handleCreatePost_row hckf hg h
      have hck' : checkPostExists st'.db repo.id rkey = true := by
        unfold checkPostExists
        rw [hq1]
        dsimp only
        have hid := hq8 hWF
        simp [hq4, hid]
      unfold HandleCreatePost
      rw [if_pos hck']
    · have hgf : anyRelevantIdents st.relevantDids (reldidsOfPost repo.did rec) = false :=
        Bool.of_not_eq_true hg
      unfold HandleCreatePost at h
      rw [if_neg (by simp [hckf]), if_pos (by simp [hgf])] at h
      have hst : st = st' := congrArg Prod.fst h
      subst hst
      unfold HandleCreatePost
      rw [if_neg (by simp [hckf]), if_pos (by simp [hgf])]



theorem countKind_zero_of_ne (tl : List NotifRow) (k : String)
    (h : ∀ n ∈ tl, n.kind ≠ k) : countKind tl k = 0 := by
  unfold countKind
  rw [List.filter_eq_nil_iff.mpr]
  · rfl
  · intro n hn
    simp [h n hn]

theorem postInfoForUri_notifs (st : St) (uri : String) :
    (postInfoForUri st uri).1.db.notifications = st.db.notifications :=
  (postInfoForUri_frame st uri).2.2.2.2.1

theorem postInfoForUri_myrepo (st : St) (uri : String) :
    (postInfoForUri st uri).1.myrepoId = st.myrepoId :=
  (postInfoForUri_frame st uri).2.2.2.2.2.2.2.2.2.2.2.2

theorem processEmbed_notifs {st : St} {embed : Option PostEmbed} {p : PostRow} :
    (processEmbed st embed p).1.db.notifications = st.db.notifications := by
  unfold processEmbed
  cases embed with
  | none => rfl
  | some e =>
    dsimp only
    split
    · cases hpi : postInfoForUri st (embedQuoteUri e) with
      | mk stA er =>
        have hA := postInfoForUri_notifs st (embedQuoteUri e)
        rw [hpi] at hA
        rw [postIDForUri, hpi]
        cases er with
        | error e2 => exact hA
        | ok v => exact hA
    · rfl

/-- Reply-notification accounting for `HandleCreatePost`: whatever the
later steps do (embed resolution failure, upsert failure, mention
notifications), a run that gets past the reply step appends exactly one
reply notification when the resolved parent author is the principal,
and none otherwise. -/
theorem handleCreatePost_replyCount {st : St} {repo : RepoRow} {rkey : String}
    {rec : FeedPost} {recb : Bytes} {cc : String} {now : Nat} {upsertFails : Bool}
    {pu ru : StrongRef} {stA stB : St} {pid pa tid ta : Nat}
    (h1 : checkPostExists st.db repo.id rkey = false)
    (h2 : anyRelevantIdents st.relevantDids (reldidsOfPost repo.did rec) = true)
    (hreply : rec.reply = some { parent := some pu, root := some ru })
    (hA : postInfoForUri st pu.uri = (stA, Except.ok (pid, pa)))
    (hB : postInfoForUri stA ru.uri = (stB, Except.ok (tid, ta))) :
    countKind (HandleCreatePost st repo rkey rec recb cc now
        upsertFails).1.db.notifications NotifKindReply =
      countKind st.db.notifications NotifKindReply +
        (if pa = st.myrepoId then 1 else 0) := by
  have hmyA : stA.myrepoId = st.myrepoId := by
    have q := postInfoForUri_myrepo st pu.uri
    rw [hA] at q
    exact q
  have hmyB : stB.myrepoId = stA.myrepoId := by
    have q := postInfoForUri_myrepo stA ru.uri
    rw [hB] at q
    exact q
  have hnA : stA.db.notifications = st.db.notifications := by
    have q := postInfoForUri_notifs st pu.uri
    rw [hA] at q
    exact q
  have hnB : stB.db.notifications = stA.db.notifications := by
    have q := postInfoForUri_notifs stA ru.uri
    rw [hB] at q
    exact q
  unfold HandleCreatePost
  rw [if_neg (by simp [h1]), if_neg (by simp [h2]), hreply]
  dsimp only
  rw [processReply_eq_ok rfl rfl hA hB]
  dsimp only
  have hstN : (if (pa == stB.myrepoId) = true then
      AddNotification stB stB.myrepoId repo.id
        ("at://" ++ repo.did ++ "/app.bsky.feed.post/" ++ rkey) NotifKindReply now
    else stB).db.notifications =
      st.db.notifications ++
        (if pa = st.myrepoId
          then [{ id := stB.db.nextNotifId, forId := stB.myrepoId, author := repo.id,
                  kind := NotifKindReply,
                  source := "at://" ++ repo.did ++ "/app.bsky.feed.post/" ++ rkey,
                  createdAt := now }]
          else []) := by
    by_cases hpa : pa = st.myrepoId
    · rw [if_pos (by simp [hpa, hmyA, hmyB]), if_pos hpa]
      rw [(AddNotification_frame stB _ _ _ _ _).2.2.2.2.2.2.2.2.2, hnB, hnA]
    · rw [if_neg (by simp [hmyB, hmyA]; exact fun hq => hpa hq), if_neg hpa]
      rw [hnB, hnA, List.append_nil]
  generalize hgen : (if (pa == stB.myrepoId) = true then
      AddNotification stB stB.myrepoId repo.id
        ("at://" ++ repo.did ++ "/app.bsky.feed.post/" ++ rkey) NotifKindReply now
    else stB) = stN at hstN ⊢
  have hcount : countKind stN.db.notifications NotifKindReply =
      countKind st.db.notifications NotifKindReply +
        (if pa = st.myrepoId then 1 else 0) := by
    rw [hstN, countKind_append]
    by_cases hpa : pa = st.myrepoId
    · rw [if_pos hpa, if_pos hpa]
      simp [countKind, NotifKindReply]
    · rw [if_neg hpa, if_neg hpa]
      simp [countKind]
  cases hpe : processEmbed stN rec.embed
      { id := 0, author := repo.id, rkey := rkey, cid := cc, notFound := false,
        raw := recb, reposting := 0, replyTo := pid, replyToUsr := pa,
        inThread := tid } with
  | mk stC er =>
    have hnC : stC.db.notifications = stN.db.notifications := by
      have q := @processEmbed_notifs stN rec.embed
        { id := 0, author := repo.id, rkey := rkey, cid := cc, notFound := false,
          raw := recb, reposting := 0, replyTo := pid, replyToUsr := pa,
          inThread := tid }
      rw [hpe] at q
      exact q
    cases er with
    | error e =>
      dsimp only
      rw [hnC]
      exact hcount
    | ok p2 =>
      dsimp only
      by_cases huf : upsertFails = true
      · rw [if_pos huf]
        dsimp only
        rw [hnC]
        exact hcount
      · rw [if_neg huf]
        dsimp only
        have hdn := (doPostCreate_spec stC.db p2).2.2.2.2.2.1
        have hmm := processMentions_mframe
          { stC with db := (doPostCreate stC.db p2).1 } rec.facets p2.author
          ("at://" ++ repo.did ++ "/app.bsky.feed.post/" ++ rkey) now
        obtain ⟨-, -, -, -, -, -, -, -, -, tl, htl, hkl⟩ := hmm
        show countKind (processMentions { stC with db := (doPostCreate stC.db p2).1 }
          rec.facets p2.author ("at://" ++ repo.did ++ "/app.bsky.feed.post/" ++ rkey)
          now).db.notifications NotifKindReply = _
        rw [htl]
        show countKind ((doPostCreate stC.db p2).1.notifications ++ tl) NotifKindReply = _
        rw [countKind_append, hdn, hnC, hcount,
          countKind_zero_of_ne tl NotifKindReply (by
            intro n hn
            rw [(hkl n hn).1]
            unfold NotifKindMention NotifKindReply
            simp)]
        omega

/-! # Claim theorems -/

/-- **C3**: idempotent ingest.  Applying the same create event twice
(post, like, repost, follow) from any state yields exactly the state of
the single application: row identities are stable and no duplicate rows
or notifications are written.  A unique-key collision surfaces as
success with the existing id re-read: once `getOrCreatePostBare` has
assigned an id, re-resolving the same URI returns the same id with no
state change. -/
theorem idempotentIngest :
    (∀ (st : St) (repo : RepoRow) (rkey : String) (rec : FeedPost) (recb : Bytes)
        (cc : String) (now : Nat) (st' : St), posWF st.db →
      HandleCreatePost st repo rkey rec recb cc now false = (st', none) →
      HandleCreatePost st' repo rkey rec recb cc now false = (st', none)) ∧
    (∀ (st : St) (repo : RepoRow) (rkey : String) (rec : SubjectRec) (cc : String)
        (now : Nat) (st' : St),
      HandleCreateLike st repo rkey rec cc now = (st', none) →
      HandleCreateLike st' repo rkey rec cc now = (st', none)) ∧
    (∀ (st : St) (repo : RepoRow) (rkey : String) (rec : SubjectRec) (now : Nat) (st' : St),
      HandleCreateRepost st repo rkey rec now = (st', none) →
      HandleCreateRepost st' repo rkey rec now = (st', none)) ∧
    (∀ (st : St) (repo : RepoRow) (rkey subj : String) (st' : St),
      HandleCreateFollow st repo rkey subj = (st', none) →
      HandleCreateFollow st' repo rkey subj = (st', none)) ∧
    (∀ (st : St) (uri : String) (st1 : St) (p : PostRow),
      getOrCreatePostBare st uri = (st1, Except.ok p) →
      postInfoForUri st1 uri = (st1, Except.ok (p.id, p.author))) := by
  refine ⟨?_, ?_, ?_, ?_, ?_⟩
  · intro st repo rkey rec recb cc now st' hWF h
    exact HandleCreatePost_idem hWF h
  · intro st repo rkey rec cc now st' h
    exact HandleCreateLike_idem h
  · intro st repo rkey rec now st' h
    exact HandleCreateRepost_idem h
  · intro st repo rkey subj st' h
    exact HandleCreateFollow_idem h
  · intro st uri st1 p hb
    have hc := getOrCreatePostBare_cache_self st uri p (by rw [hb])
    rw [hb] at hc
    exact postInfoForUri_eq_hit hc

/-- Witness for `idempotentIngest`: re-applying alice's post create
leaves the once-applied state unchanged. -/
theorem idempotentIngest_witness :
    HandleCreatePost (HandleCreatePost relSt aliceRepo "w1" plainPost [7] "cw" 3 false).1
        aliceRepo "w1" plainPost [7] "cw" 3 false =
      ((HandleCreatePost relSt aliceRepo "w1" plainPost [7] "cw" 3 false).1, none) :=
  idempotentIngest.1 relSt aliceRepo "w1" plainPost [7] "cw" 3
    (HandleCreatePost relSt aliceRepo "w1" plainPost [7] "cw" 3 false).1
    (by decide) (by decide)


/-- **C4**: placeholder upgrade.  (a) `getOrCreatePostBare` on a URI
whose post is unknown inserts a placeholder row (`not_found = true`,
empty raw) and returns it.  (b) A later successful create for the same
`(author, rkey)` with non-empty record bytes reuses the same row id and
leaves the row with `not_found = false` and the non-empty raw. -/
theorem placeholderUpgrade :
    (∀ (st : St) (uri did col rkey : String) (st1 : St) (r : RepoRow),
      parseAtUri uri = some (did, col, rkey) →
      getOrCreateRepo st did = (st1, r) →
      tryLoadPostInfo st1.db r.id rkey = none →
      ∃ p, (getOrCreatePostBare st uri).2 = Except.ok p ∧ p.notFound = true ∧
        p.raw = [] ∧ p.author = r.id ∧ p.rkey = rkey ∧
        findPost (getOrCreatePostBare st uri).1.db.posts r.id rkey = some p) ∧
    (∀ (st : St) (repo : RepoRow) (rkey : String) (rec : FeedPost) (recb : Bytes)
        (cc : String) (now : Nat) (st' : St) (pl : PostRow),
      findPost st.db.posts repo.id rkey = some pl → pl.notFound = true →
      anyRelevantIdents st.relevantDids (reldidsOfPost repo.did rec) = true →
      recb ≠ [] →
      HandleCreatePost st repo rkey rec recb cc now false = (st', none) →
      ∃ q, findPost st'.db.posts repo.id rkey = some q ∧ q.id = pl.id ∧
        q.notFound = false ∧ q.raw = recb ∧ q.raw ≠ []) := by
  constructor
  · intro st uri did col rkey st1 r hp hgr htl
    rw [getOrCreatePostBare_eq_missing hp hgr htl]
    have htl2 : st1.db.posts.find? (fun p => p.author == r.id && p.rkey == rkey) = none := by
      unfold tryLoadPostInfo findPost at htl
      exact htl
    refine ⟨_, rfl, rfl, rfl, rfl, rfl, ?_⟩
    unfold findPost
    rw [List.find?_append, htl2]
    simp
  · intro st repo rkey rec recb cc now st' pl hfind hnf hgate hraw hrun
    have hpe : checkPostExists st.db repo.id rkey = false := by
      unfold checkPostExists
      rw [hfind]
      dsimp only
      rw [hnf]
      simp
    obtain ⟨q, hq1, hq2, hq3, hq4, hq5, hq6, hq7, hq8⟩ :=
      handleCreatePost_row hpe hgate hrun
    exact ⟨q, hq1, hq7 pl hfind, hq4, hq5, by rw [hq5]; exact hraw⟩

/-- Witness for `placeholderUpgrade`: alice's post `px` is first created
as a placeholder (id 1) and then upgraded in place by the real create. -/
theorem placeholderUpgrade_witness :
    ∃ q, findPost (HandleCreatePost pxSt.1 aliceRepo "px" plainPost [5] "cid9" 1
        false).1.db.posts aliceRepo.id "px" = some q ∧
      q.id = ({ id := 1, author := 2, rkey := "px", cid := "", notFound := true,
                raw := [], reposting := 0, replyTo := 0, replyToUsr := 0,
                inThread := 0 } : PostRow).id ∧
      q.notFound = false ∧ q.raw = [5] ∧ q.raw ≠ [] :=
  placeholderUpgrade.2 pxSt.1 aliceRepo "px" plainPost [5] "cid9" 1
    (HandleCreatePost pxSt.1 aliceRepo "px" plainPost [5] "cid9" 1 false).1
    { id := 1, author := 2, rkey := "px", cid := "", notFound := true, raw := [],
      reposting := 0, replyTo := 0, replyToUsr := 0, inThread := 0 }
    (by decide) (by decide) (by decide) (by decide) (by decide)



/-- **C5**: relevance closure under the reply chain.  (a) A feed.post
create that is a reply whose parent or root URI has a relevant authority
DID is indexed (a non-placeholder row appears at `(author, rkey)`) even
when the author is not relevant, provided the run succeeds and no row
existed.  (b) When `anyRelevant` of the author and (for replies) the
parent/root URIs is false, the handler returns success with no side
effect (the state is returned unchanged). -/
theorem relevanceClosure :
    (∀ (st : St) (repo : RepoRow) (rkey : String) (rec : FeedPost) (recb : Bytes)
        (cc : String) (now : Nat) (st' : St) (pu ru : StrongRef) (a : String),
      checkPostExists st.db repo.id rkey = false →
      rec.reply = some { parent := some pu, root := some ru } →
      ((strStarts pu.uri "did:" = false ∧ strStarts pu.uri "at://" = true ∧
        atUriAuthority pu.uri = some a ∧ a ∈ st.relevantDids) ∨
       (strStarts ru.uri "did:" = false ∧ strStarts ru.uri "at://" = true ∧
        atUriAuthority ru.uri = some a ∧ a ∈ st.relevantDids)) →
      HandleCreatePost st repo rkey rec recb cc now false = (st', none) →
      ∃ q, findPost st'.db.posts repo.id rkey = some q ∧ q.notFound = false) ∧
    (∀ (st : St) (repo : RepoRow) (rkey : String) (rec : FeedPost) (recb : Bytes)
        (cc : String) (now : Nat),
      checkPostExists st.db repo.id rkey = false →
      anyRelevantIdents st.relevantDids (reldidsOfPost repo.did rec) = false →
      HandleCreatePost st repo rkey rec recb cc now false = (st, none)) := by
  constructor
  · intro st repo rkey rec recb cc now st' pu ru a h1 hreply hrel hrun
    -- the relevance gate passes
    have hgate : anyRelevantIdents st.relevantDids (reldidsOfPost repo.did rec) = true := by
      unfold reldidsOfPost
      rw [hreply]
      dsimp only
      unfold anyRelevantIdents
      rcases hrel with ⟨hd, hu, ha, hm⟩ | ⟨hd, hu, ha, hm⟩ <;>
        simp [identRelevant_of_authority st.relevantDids _ a hd hu ha hm]
    unfold HandleCreatePost at hrun
    rw [if_neg (by simp [h1]), if_neg (by simp [hgate])] at hrun
    rw [hreply] at hrun
    dsimp only at hrun
    cases hpr : processReply st { parent := some pu, root := some ru }
        { id := 0, author := repo.id, rkey := rkey, cid := cc, notFound := false,
          raw := recb, reposting := 0, replyTo := 0, replyToUsr := 0, inThread := 0 }
        ("at://" ++ repo.did ++ "/app.bsky.feed.post/" ++ rkey) now with
    | mk stA er =>
      rw [hpr] at hrun
      cases er with
      | error e => exact absurd (congrArg Prod.snd hrun) (by simp)
      | ok p1 =>
        dsimp only at hrun
        cases hpe : processEmbed stA rec.embed p1 with
        | mk stB er2 =>
          rw [hpe] at hrun
          cases er2 with
          | error e => exact absurd (congrArg Prod.snd hrun) (by simp)
          | ok p2 =>
            dsimp only at hrun
            -- fields of p2
            have hf1 := processReply_post_fields hpr
            have hf2 := processEmbed_post_fields hpe
            have hauthor : p2.author = repo.id := by
              rw [hf2.1, hf1.1]
            have hrkey : p2.rkey = rkey := by
              rw [hf2.2.1, hf1.2.1]
            have hnf : p2.notFound = false := by
              rw [hf2.2.2.1, hf1.2.2.1]
            -- the upsert
            cases hdp : doPostCreate stB.db p2 with
            | mk db3 pid =>
              rw [hdp] at hrun
              have hspec := doPostCreate_spec stB.db p2
              rw [hdp] at hspec
              dsimp only at hspec
              -- the mention pass preserves posts
              have hmf := processMentions_mframe { stB with db := db3 } rec.facets
                p2.author ("at://" ++ repo.did ++ "/app.bsky.feed.post/" ++ rkey) now
              -- final state
              have hfst := congrArg Prod.fst hrun
              dsimp only at hfst
              refine ⟨{ p2 with id := pid }, ?_, by simp [hnf]⟩
              rw [← hfst]
              show findPost (processMentions { stB with db := db3 } rec.facets p2.author
                ("at://" ++ repo.did ++ "/app.bsky.feed.post/" ++ rkey) now).db.posts
                repo.id rkey = some { p2 with id := pid }
              rw [hmf.1]
              show findPost db3.posts repo.id rkey = some { p2 with id := pid }
              rw [← hauthor, ← hrkey]
              exact hspec.1
  · intro st repo rkey rec recb cc now h1 h2
    unfold HandleCreatePost
    rw [if_neg (by simp [h1]), if_pos (by simp [h2])]

/-- Witness for `relevanceClosure`: bob (not relevant) replies to a post
of alice (relevant); the reply is indexed. -/
theorem relevanceClosure_witness :
    ∃ q, findPost (HandleCreatePost relSt bobRepo "r2" replyToAliceRec [3] "cidr" 7
      false).1.db.posts bobRepo.id "r2" = some q ∧ q.notFound = false :=
  relevanceClosure.1 relSt bobRepo "r2" replyToAliceRec [3] "cidr" 7
    (HandleCreatePost relSt bobRepo "r2" replyToAliceRec [3] "cidr" 7 false).1
    { uri := "at://did:plc:alice/app.bsky.feed.post/p1" }
    { uri := "at://did:plc:alice/app.bsky.feed.post/p1" } "did:plc:alice"
    (by decide) (by decide)
    (Or.inl ⟨by decide, by decide, by decide, by decide⟩)
    (by decide)


/-- **C6** (counterexample): for failure count `n = 5` the computed delay
is 30 s, whereas `min(5s + 2s·n, 30s)` is 15 s — the claimed formula is
wrong on `5 ≤ n ≤ 12`. -/
theorem reconnectBackoff_min_formula_cx :
    delayForFailureCount 5 = 30 ∧ min ((5 : Int) + 2 * 5) 30 = 15 ∧ (30 : Int) ≠ 15 := by
  decide

/-- **C6** (amended): the delay before the `n`-th quick reconnect is
`min(5s + 2s·n, 30s)` only for `n < 5`; from the fifth consecutive quick
failure on it is a flat 30 s.  The failure count resets to zero after any
connection held for longer than 5 s and increments otherwise. -/
theorem reconnectBackoff_amended :
    (∀ n : Int, 1 ≤ n → n < 5 → delayForFailureCount n = min (5 + 2 * n) 30) ∧
    (∀ n : Int, 5 ≤ n → delayForFailureCount n = 30) ∧
    (∀ f e : Nat, 5 < e → updateFailures f e = 0) ∧
    (∀ f e : Nat, e ≤ 5 → updateFailures f e = f + 1) := by
  refine ⟨?_, ?_, ?_, ?_⟩
  · intro n h1 h5
    simp only [delayForFailureCount, if_pos h5]
    omega
  · intro n h5
    simp only [delayForFailureCount]
    rw [if_neg (by omega)]
  · intro f e he
    simp only [updateFailures, if_pos he]
  · intro f e he
    simp only [updateFailures]
    rw [if_neg (by omega)]

/-- Witness for `reconnectBackoff_amended` at `n = 3`, `n = 7`,
`(f, e) = (4, 6)` and `(4, 3)`. -/
theorem reconnectBackoff_amended_witness :
    delayForFailureCount 3 = min (5 + 2 * 3) 30 ∧ delayForFailureCount 7 = 30 ∧
    updateFailures 4 6 = 0 ∧ updateFailures 4 3 = 4 + 1 :=
  ⟨reconnectBackoff_amended.1 3 (by decide) (by decide),
   reconnectBackoff_amended.2.1 7 (by decide),
   reconnectBackoff_amended.2.2.1 4 6 (by decide),
   reconnectBackoff_amended.2.2.2 4 3 (by decide)⟩

/-- **C7**: evaluation of the thread-paging model at the failing input:
an anchor with four direct replies, requested with `below = 2` and
`branchingFactor = 3`.  The code returns all four children at depth 1
(the branching factor is parsed but never applied) and the response's
`hasOtherReplies` is the constant `false` (its assignment is commented
out), contradicting the specified trimming behaviour. -/
theorem threadPaging_branchingFactor_code_eval :
    getPostThreadV2Items [] fourReplyTree 2 3 =
      ([(0, "at://d/app.bsky.feed.post/a"), (1, "at://d/app.bsky.feed.post/c1"),
        (1, "at://d/app.bsky.feed.post/c2"), (1, "at://d/app.bsky.feed.post/c3"),
        (1, "at://d/app.bsky.feed.post/c4")], false) ∧
    ((getPostThreadV2Items [] fourReplyTree 2 3).1.filter
        (fun it => it.1 == 1)).length = 4 ∧
    (getPostThreadV2Items [] fourReplyTree 2 3).2 = false := by
  decide

/-- **C8** (counterexample): with wall-clock skew (id 1 created at 10,
id 2 created at 5) the returned page is `[id 1, id 2]` — the listing
orders by `created_at DESC`, not by notification id descending. -/
theorem notifListing_id_order_cx :
    (listNotificationsQuery skewDb 7 0 50).1.map (fun n => n.id) = [1, 2] ∧
    ¬ List.Pairwise (fun a b : Nat => b ≤ a)
        ((listNotificationsQuery skewDb 7 0 50).1.map (fun n => n.id)) := by
  constructor
  · decide
  · intro h
    have h2 : (listNotificationsQuery skewDb 7 0 50).1.map (fun n => n.id) = [1, 2] := by
      decide
    rw [h2] at h
    simp [List.pairwise_cons] at h

/-- **C8** (amended): every page is ordered by `created_at` descending
(not by id); each returned row belongs to the requested recipient and —
when a cursor is supplied — has id strictly below the cursor; the
returned cursor is the last returned row's id. -/
theorem notifListing_amended :
    ∀ (db : Db) (forId cursor limit : Nat),
      ((listNotificationsQuery db forId cursor limit).1.Pairwise createdDescOrder) ∧
      (∀ n ∈ (listNotificationsQuery db forId cursor limit).1,
        n ∈ db.notifications ∧ n.forId = forId ∧ (cursor ≠ 0 → n.id < cursor)) ∧
      (∀ last, (listNotificationsQuery db forId cursor limit).1.getLast? = some last →
        (listNotificationsQuery db forId cursor limit).2 = last.id) := by
  intro db forId cursor limit
  haveI : IsTotal NotifRow createdDescOrder := ⟨fun a b => le_total b.createdAt a.createdAt⟩
  haveI : IsTrans NotifRow createdDescOrder := ⟨fun a b c hab hbc => le_trans hbc hab⟩
  refine ⟨?_, ?_, ?_⟩
  · simp only [listNotificationsQuery, sortByCreatedDesc]
    exact List.Pairwise.sublist (List.take_sublist _ _)
      (List.sorted_insertionSort createdDescOrder _)
  · intro n hn
    simp only [listNotificationsQuery, sortByCreatedDesc] at hn
    have hmem := List.mem_of_mem_take hn
    rw [List.mem_insertionSort] at hmem
    rw [List.mem_filter] at hmem
    obtain ⟨hmem, hcond⟩ := hmem
    simp only [Bool.and_eq_true, Bool.or_eq_true, beq_iff_eq, decide_eq_true_eq] at hcond
    exact ⟨hmem, hcond.1, fun hc => hcond.2.resolve_left hc⟩
  · intro last h
    simp only [listNotificationsQuery] at h ⊢
    rw [h]

/-- Witness for `notifListing_amended` at the skewed two-row table. -/
theorem notifListing_amended_witness :
    ((listNotificationsQuery skewDb 7 0 50).1.Pairwise createdDescOrder) ∧
    (∀ n ∈ (listNotificationsQuery skewDb 7 0 50).1,
      n ∈ skewDb.notifications ∧ n.forId = 7 ∧ ((0 : Nat) ≠ 0 → n.id < 0)) ∧
    (∀ last, (listNotificationsQuery skewDb 7 0 50).1.getLast? = some last →
      (listNotificationsQuery skewDb 7 0 50).2 = last.id) :=
  notifListing_amended skewDb 7 0 50

/-- **C1** (counterexample): a cold-start delete is NOT guarded by the
persisted per-repo counter: with an empty rev cache, `sync_infos`
holding rev `"2"` for the repo, and a delete arriving at the older rev
`"1"`, the post row is deleted — the claimed lazy load of the cached
revision does not happen on the delete path. -/
theorem revGuard_lazy_delete_cx :
    syncInfoRev coldSt.db 2 = "2" ∧ revLt "1" "2" = true ∧
    lookupAssoc coldSt.revCache 2 = none ∧
    (HandleDelete coldSt "did:plc:alice" "1" "app.bsky.feed.post/r1").2 = none ∧
    (HandleDelete coldSt "did:plc:alice" "1" "app.bsky.feed.post/r1").1.db.posts = [] ∧
    coldSt.db.posts ≠ [] := by
  decide

/-- **C1** (amended): the revision guard drops stale ops without touching
the tables: for create and update ops the effective revision is the
cached one, loaded lazily from `sync_infos` on a cache miss; for delete
ops only the in-memory cache is consulted (no lazy load, see the
counterexample).  When the effective revision is non-empty and the op's
rev is lexicographically smaller, the op is dropped with no table change
and no notification.  The create-at-rev-2-then-delete-at-rev-1 scenario
leaves the post in existence. -/
theorem revGuard_amended :
    (∀ (st : St) (did rev path : String) (orec : OpRecord) (now : Nat)
        (rr : RepoRow) (st1 : St) (lrev : String),
      st.db.repos.find? (fun r => r.did == did) = some rr →
      revForRepo st rr = (st1, lrev) →
      lrev ≠ "" → revLt rev lrev = true →
      HandleCreate st did rev path orec now = (st1, none) ∧ st1.db = st.db) ∧
    (∀ (st : St) (did rev path : String) (orec : OpRecord)
        (rr : RepoRow) (st1 : St) (lrev : String),
      st.db.repos.find? (fun r => r.did == did) = some rr →
      revForRepo st rr = (st1, lrev) →
      lrev ≠ "" → revLt rev lrev = true →
      HandleUpdate st did rev path orec = (st1, none) ∧ st1.db = st.db) ∧
    (∀ (st : St) (did rev path : String) (rr : RepoRow) (lrev : String),
      st.db.repos.find? (fun r => r.did == did) = some rr →
      lookupAssoc st.revCache rr.id = some lrev →
      revLt rev lrev = true →
      HandleDelete st did rev path = (st, none)) ∧
    (c1AfterCreate.2 = none ∧ c1AfterDelete.2 = none ∧
      (c1AfterDelete.1.db.posts.any
        (fun p => p.author == 2 && p.rkey == "r1" && !p.notFound)) = true) := by
  refine ⟨?_, ?_, ?_, by decide⟩
  · intro st did rev path orec now rr st1 lrev h1 h2 h3 h4
    have hg : getOrCreateRepo st did = (st, rr) := getOrCreateRepo_found h1
    have hdb : st1.db = st.db := by
      have := revForRepo_db st rr
      rw [h2] at this
      exact this
    refine ⟨?_, hdb⟩
    simp only [HandleCreate, hg, h2]
    rw [if_pos]
    simp [h4, bne_iff_ne, h3]
  · intro st did rev path orec rr st1 lrev h1 h2 h3 h4
    have hg : getOrCreateRepo st did = (st, rr) := getOrCreateRepo_found h1
    have hdb : st1.db = st.db := by
      have := revForRepo_db st rr
      rw [h2] at this
      exact this
    refine ⟨?_, hdb⟩
    simp only [HandleUpdate, hg, h2]
    rw [if_pos]
    simp [h4, bne_iff_ne, h3]
  · intro st did rev path rr lrev h1 h2 h3
    have hg : getOrCreateRepo st did = (st, rr) := getOrCreateRepo_found h1
    simp only [HandleDelete, hg, h2]
    rw [if_pos h3]

/-- Witness for `revGuard_amended`: on the warm backend (alice cached at
rev `"5"`) a create at rev `"3"` is dropped unchanged. -/
theorem revGuard_amended_witness :
    HandleCreate warmSt "did:plc:alice" "3" "app.bsky.feed.post/r9"
      (OpRecord.post plainPost [1] "c") 5 = (warmSt, none) ∧ warmSt.db = warmSt.db :=
  revGuard_amended.1 warmSt "did:plc:alice" "3" "app.bsky.feed.post/r9"
    (OpRecord.post plainPost [1] "c") 5 aliceRepo warmSt "5"
    (by decide) (by decide) (by decide) (by decide)

/-- **C9** (counterexample): a successful profile update op does not
update the rev cache: after `HandleUpdate` dispatches
`app.bsky.actor.profile` successfully (a profile row is written), the
repo's rev-cache entry is still absent rather than `"3"`. -/
theorem revCacheUpdate_update_cx :
    (HandleUpdate baseSt "did:plc:alice" "3" "app.bsky.actor.profile/self"
        (OpRecord.profile [1])).2 = none ∧
    (HandleUpdate baseSt "did:plc:alice" "3" "app.bsky.actor.profile/self"
        (OpRecord.profile [1])).1.db.profiles.length = 1 ∧
    lookupAssoc (HandleUpdate baseSt "did:plc:alice" "3" "app.bsky.actor.profile/self"
        (OpRecord.profile [1])).1.revCache 2 = none ∧
    (none : Option String) ≠ some "3" := by
  decide

/-- **C9** (amended): after a create or delete op that passes the
revision guard and whose dispatch returns without error — including ops
the handler ignores — the router sets the repo's rev-cache entry to the
op's rev; update ops never update the rev cache (see the
counterexample). -/
theorem revCacheUpdate_amended :
    (∀ (st : St) (did rev path : String) (orec : OpRecord) (now : Nat)
        (rr : RepoRow) (st2 : St),
      st.db.repos.find? (fun r => r.did == did) = some rr →
      (((revForRepo st rr).2 != "") && revLt rev (revForRepo st rr).2) = false →
      HandleCreate st did rev path orec now = (st2, none) →
      lookupAssoc st2.revCache rr.id = some rev) ∧
    (∀ (st : St) (did rev path : String) (rr : RepoRow) (st2 : St),
      st.db.repos.find? (fun r => r.did == did) = some rr →
      (match lookupAssoc st.revCache rr.id with
        | some lrev => revLt rev lrev
        | none => false) = false →
      HandleDelete st did rev path = (st2, none) →
      lookupAssoc st2.revCache rr.id = some rev) := by
  constructor
  · intro st did rev path orec now rr st2 h1 h2 h3
    have hg : getOrCreateRepo st did = (st, rr) := getOrCreateRepo_found h1
    simp only [HandleCreate, hg] at h3
    rw [if_neg (by simp [h2])] at h3
    split at h3
    · split at h3
      · exact absurd (congrArg Prod.snd h3) (by simp)
      · have hfst := congrArg Prod.fst h3
        simp only at hfst
        rw [← hfst]
        exact lookupAssoc_addAssoc_self _ _ _
    · exact absurd (congrArg Prod.snd h3) (by simp)
  · intro st did rev path rr st2 h1 h2 h3
    have hg : getOrCreateRepo st did = (st, rr) := getOrCreateRepo_found h1
    simp only [HandleDelete, hg] at h3
    rw [if_neg (by simp [h2])] at h3
    split at h3
    · split at h3
      · exact absurd (congrArg Prod.snd h3) (by simp)
      · have hfst := congrArg Prod.fst h3
        simp only at hfst
        rw [← hfst]
        exact lookupAssoc_addAssoc_self _ _ _
    · exact absurd (congrArg Prod.snd h3) (by simp)

/-- Witness for `revCacheUpdate_amended`: a create at rev `"7"` on the
warm backend (alice cached at `"5"`) passes the guard and leaves alice's
rev cache at `"7"`. -/
theorem revCacheUpdate_amended_witness :
    lookupAssoc (HandleCreate warmSt "did:plc:alice" "7" "app.bsky.feed.post/r1"
      (OpRecord.post plainPost [7] "cid1") 100).1.revCache 2 = some "7" :=
  revCacheUpdate_amended.1 warmSt "did:plc:alice" "7" "app.bsky.feed.post/r1"
    (OpRecord.post plainPost [7] "cid1") 100 aliceRepo
    (HandleCreate warmSt "did:plc:alice" "7" "app.bsky.feed.post/r1"
      (OpRecord.post plainPost [7] "cid1") 100).1 (by decide) (by decide) (by decide)

/-- C10: in `HandleCreatePost` the reply notification for the principal is
written before the post row is upserted, so a failing upsert surfaces an
error while the notification row remains, and re-running the same create
event appends a second reply notification: the two writes are not
atomic. -/
theorem notifNotAtomic {st : St} {repo : RepoRow} {rkey : String} {rec : FeedPost}
    {recb : Bytes} {cc : String} {now : Nat} {pu ru : StrongRef}
    {stA stB stA2 stB2 : St} {pid pa tid ta pid2 pa2 tid2 ta2 : Nat}
    (h1 : checkPostExists st.db repo.id rkey = false)
    (h2 : anyRelevantIdents st.relevantDids (reldidsOfPost repo.did rec) = true)
    (hreply : rec.reply = some { parent := some pu, root := some ru })
    (hemb : rec.embed = none)
    (hA : postInfoForUri st pu.uri = (stA, Except.ok (pid, pa)))
    (hB : postInfoForUri stA ru.uri = (stB, Except.ok (tid, ta)))
    (hpa : pa = st.myrepoId)
    (h1' : checkPostExists (HandleCreatePost st repo rkey rec recb cc now
      true).1.db repo.id rkey = false)
    (h2' : anyRelevantIdents (HandleCreatePost st repo rkey rec recb cc now
      true).1.relevantDids (reldidsOfPost repo.did rec) = true)
    (hA' : postInfoForUri (HandleCreatePost st repo rkey rec recb cc now true).1
      pu.uri = (stA2, Except.ok (pid2, pa2)))
    (hB' : postInfoForUri stA2 ru.uri = (stB2, Except.ok (tid2, ta2)))
    (hpa2 : pa2 = (HandleCreatePost st repo rkey rec recb cc now true).1.myrepoId) :
    (HandleCreatePost st repo rkey rec recb cc now true).2 =
        some "doPostCreate: database error" ∧
    countKind (HandleCreatePost st repo rkey rec recb cc now
        true).1.db.notifications NotifKindReply =
      countKind st.db.notifications NotifKindReply + 1 ∧
    countKind (HandleCreatePost (HandleCreatePost st repo rkey rec recb cc now
        true).1 repo rkey rec recb cc now false).1.db.notifications NotifKindReply =
      countKind st.db.notifications NotifKindReply + 2 := by
  refine ⟨?_, ?_, ?_⟩
  · unfold HandleCreatePost
    rw [if_neg (by simp [h1]), if_neg (by simp [h2]), hreply]
    dsimp only
    rw [processReply_eq_ok rfl rfl hA hB]
    dsimp only
    rw [hemb, processEmbed_eq_none]
    dsimp only
    rw [if_pos rfl]
  · have h := @handleCreatePost_replyCount st repo rkey rec recb cc now true
      pu ru stA stB pid pa tid ta h1 h2 hreply hA hB
    rw [h, if_pos hpa]
  · have hfst := @handleCreatePost_replyCount st repo rkey rec recb cc now true
      pu ru stA stB pid pa tid ta h1 h2 hreply hA hB
    have hsnd := @handleCreatePost_replyCount
      (HandleCreatePost st repo rkey rec recb cc now true).1 repo rkey rec recb cc
      now false pu ru stA2 stB2 pid2 pa2 tid2 ta2 h1' h2' hreply hA' hB'
    rw [hsnd, if_pos hpa2, hfst, if_pos hpa]

/-- C10 witness: alice replies to the principal's post `p0`; the first
ingest hits the injected upsert failure, the second succeeds. -/
theorem notifNotAtomic_witness :
    (HandleCreatePost c10St aliceRepo "r9" c10Rec [5] "cr" 60 true).2 =
        some "doPostCreate: database error" ∧
    countKind (HandleCreatePost c10St aliceRepo "r9" c10Rec [5] "cr" 60
        true).1.db.notifications NotifKindReply =
      countKind c10St.db.notifications NotifKindReply + 1 ∧
    countKind (HandleCreatePost (HandleCreatePost c10St aliceRepo "r9" c10Rec [5]
        "cr" 60 true).1 aliceRepo "r9" c10Rec [5] "cr" 60
        false).1.db.notifications NotifKindReply =
      countKind c10St.db.notifications NotifKindReply + 2 :=
  notifNotAtomic (by decide) (by decide) rfl rfl rfl rfl (by decide)
    (by decide) (by decide) rfl rfl (by decide)

/-- C2 as written fails for mentions: one ingested post carrying two
mention facets of the principal records two mention notification rows,
not exactly one. -/
theorem notifGeneration_mention_cx :
    countKind (HandleCreatePost relSt aliceRepo "m1" twoMentionRec [9] "cm" 50
        false).1.db.notifications NotifKindMention = 2 ∧ (2 : Nat) ≠ 1 := by
  constructor
  · decide
  · decide

/-- C2 amended: exactly one reply notification per ingested reply whose
resolved parent author is the principal (whatever later steps do), exactly
one like notification per ingested like of a principal-authored post,
exactly one repost notification per ingested repost of a
principal-authored post; mention notifications however are written once
per mention facet resolving to the principal (facet lists compose
additively and each principal-resolving mention facet appends exactly one
row), not once per post. -/
theorem notifGeneration_amended :
    (∀ (st : St) (repo : RepoRow) (rkey : String) (rec : FeedPost) (recb : Bytes)
        (cc : String) (now : Nat) (upsertFails : Bool) (pu ru : StrongRef)
        (stA stB : St) (pid pa tid ta : Nat),
      checkPostExists st.db repo.id rkey = false →
      anyRelevantIdents st.relevantDids (reldidsOfPost repo.did rec) = true →
      rec.reply = some { parent := some pu, root := some ru } →
      postInfoForUri st pu.uri = (stA, Except.ok (pid, pa)) →
      postInfoForUri stA ru.uri = (stB, Except.ok (tid, ta)) →
      pa = st.myrepoId →
      countKind (HandleCreatePost st repo rkey rec recb cc now
          upsertFails).1.db.notifications NotifKindReply =
        countKind st.db.notifications NotifKindReply + 1) ∧
    (∀ (st : St) (repo : RepoRow) (rkey : String) (rec : SubjectRec) (cc : String)
        (now : Nat) (stA : St) (pid pa : Nat),
      anyRelevantIdents st.relevantDids [repo.did, rec.subjectUri] = true →
      postInfoForUri st rec.subjectUri = (stA, Except.ok (pid, pa)) →
      stA.db.likes.any (fun l => l.author == repo.id && l.rkey == rkey) = false →
      pa = st.myrepoId →
      countKind (HandleCreateLike st repo rkey rec cc now).1.db.notifications
          NotifKindLike =
        countKind st.db.notifications NotifKindLike + 1) ∧
    (∀ (st : St) (repo : RepoRow) (rkey : String) (rec : SubjectRec)
        (now : Nat) (stA : St) (pid pa : Nat),
      anyRelevantIdents st.relevantDids [repo.did, rec.subjectUri] = true →
      postInfoForUri st rec.subjectUri = (stA, Except.ok (pid, pa)) →
      stA.db.reposts.any (fun l => l.author == repo.id && l.rkey == rkey) = false →
      pa = st.myrepoId →
      countKind (HandleCreateRepost st repo rkey rec now).1.db.notifications
          NotifKindRepost =
        countKind st.db.notifications NotifKindRepost + 1) ∧
    (∀ (st : St) (fs1 fs2 : List Facet) (pA : Nat) (uri : String) (now : Nat),
      processMentions st (fs1 ++ fs2) pA uri now =
        processMentions (processMentions st fs1 pA uri now) fs2 pA uri now) ∧
    (∀ (st : St) (pA : Nat) (uri : String) (now : Nat) (mdid : String)
        (st3 : St) (mrepo : RepoRow),
      getOrCreateRepo st mdid = (st3, mrepo) →
      (mrepo.id == st3.myrepoId) = true →
      countKind (processMentions st [{ features := [{ mentionDid := some mdid }] }]
          pA uri now).db.notifications NotifKindMention =
        countKind st.db.notifications NotifKindMention + 1) := by
  refine ⟨?_, ?_, ?_, ?_, ?_⟩
  · intro st repo rkey rec recb cc now upsertFails pu ru stA stB pid pa tid ta
      h1 h2 hreply hA hB hpa
    have h := @handleCreatePost_replyCount st repo rkey rec recb cc now upsertFails
      pu ru stA stB pid pa tid ta h1 h2 hreply hA hB
    rw [h, if_pos hpa]
  · intro st repo rkey rec cc now stA pid pa hgate hA hdup hpa
    have hmy : stA.myrepoId = st.myrepoId := by
      have q := postInfoForUri_myrepo st rec.subjectUri
      rw [hA] at q
      exact q
    have hn : stA.db.notifications = st.db.notifications := by
      have q := postInfoForUri_notifs st rec.subjectUri
      rw [hA] at q
      exact q
    unfold HandleCreateLike
    rw [if_neg (by simp [hgate]), hA]
    dsimp only
    rw [if_neg (by simp [hdup])]
    rw [if_pos (by simp [hpa, hmy])]
    dsimp only
    rw [(AddNotification_frame _ _ _ _ _ _).2.2.2.2.2.2.2.2.2]
    dsimp only
    rw [countKind_append, hn]
    simp [countKind, NotifKindLike]
  · intro st repo rkey rec now stA pid pa hgate hA hdup hpa
    have hmy : stA.myrepoId = st.myrepoId := by
      have q := postInfoForUri_myrepo st rec.subjectUri
      rw [hA] at q
      exact q
    have hn : stA.db.notifications = st.db.notifications := by
      have q := postInfoForUri_notifs st rec.subjectUri
      rw [hA] at q
      exact q
    unfold HandleCreateRepost
    rw [if_neg (by simp [hgate]), hA]
    dsimp only
    rw [if_neg (by simp [hdup])]
    rw [if_pos (by simp [hpa, hmy])]
    dsimp only
    rw [(AddNotification_frame _ _ _ _ _ _).2.2.2.2.2.2.2.2.2]
    dsimp only
    rw [countKind_append, hn]
    simp [countKind, NotifKindRepost]
  · intro st fs1 fs2 pA uri now
    unfold processMentions
    rw [List.foldl_append]
  · intro st pA uri now mdid st3 mrepo hg hid
    unfold processMentions
    rw [List.foldl_cons, List.foldl_nil, List.foldl_cons, List.foldl_nil]
    dsimp only
    rw [hg]
    dsimp only
    rw [if_pos hid]
    have hn : st3.db.notifications = st.db.notifications := by
      have q := (getOrCreateRepo_frame st mdid).2.2.2.2.2.1
      rw [hg] at q
      exact q
    rw [(AddNotification_frame _ _ _ _ _ _).2.2.2.2.2.2.2.2.2, countKind_append, hn]
    simp [countKind, NotifKindMention]

/-- C2 amended witness: alice replies to, likes, and reposts the
principal's post `p0` (one notification each), facet lists compose, and a
single mention facet of the principal appends one mention row. -/
theorem notifGeneration_amended_witness :
    countKind (HandleCreatePost c10St aliceRepo "r9" c10Rec [5] "cr" 60
        false).1.db.notifications NotifKindReply =
      countKind c10St.db.notifications NotifKindReply + 1 ∧
    countKind (HandleCreateLike c10St aliceRepo "lk1"
        { subjectUri := "at://did:plc:me/app.bsky.feed.post/p0" } "cl"
        70).1.db.notifications NotifKindLike =
      countKind c10St.db.notifications NotifKindLike + 1 ∧
    countKind (HandleCreateRepost c10St aliceRepo "rp1"
        { subjectUri := "at://did:plc:me/app.bsky.feed.post/p0" }
        80).1.db.notifications NotifKindRepost =
      countKind c10St.db.notifications NotifKindRepost + 1 ∧
    processMentions c10St (twoMentionRec.facets ++ twoMentionRec.facets) 2
        "at://did:plc:alice/app.bsky.feed.post/m1" 90 =
      processMentions (processMentions c10St twoMentionRec.facets 2
        "at://did:plc:alice/app.bsky.feed.post/m1" 90) twoMentionRec.facets 2
        "at://did:plc:alice/app.bsky.feed.post/m1" 90 ∧
    countKind (processMentions c10St
        [{ features := [{ mentionDid := some "did:plc:me" }] }] 2
        "at://did:plc:alice/app.bsky.feed.post/m1" 90).db.notifications
        NotifKindMention =
      countKind c10St.db.notifications NotifKindMention + 1 :=
  ⟨notifGeneration_amended.1 c10St aliceRepo "r9" c10Rec [5] "cr" 60 false
      { uri := "at://did:plc:me/app.bsky.feed.post/p0" }
      { uri := "at://did:plc:me/app.bsky.feed.post/p0" }
      (postInfoForUri c10St "at://did:plc:me/app.bsky.feed.post/p0").1
      (postInfoForUri (postInfoForUri c10St
        "at://did:plc:me/app.bsky.feed.post/p0").1
        "at://did:plc:me/app.bsky.feed.post/p0").1
      1 1 1 1 (by decide) (by decide) rfl rfl rfl (by decide),
   notifGeneration_amended.2.1 c10St aliceRepo "lk1"
      { subjectUri := "at://did:plc:me/app.bsky.feed.post/p0" } "cl" 70
      (postInfoForUri c10St "at://did:plc:me/app.bsky.feed.post/p0").1
      1 1 (by decide) rfl (by decide) (by decide),
   notifGeneration_amended.2.2.1 c10St aliceRepo "rp1"
      { subjectUri := "at://did:plc:me/app.bsky.feed.post/p0" } 80
      (postInfoForUri c10St "at://did:plc:me/app.bsky.feed.post/p0").1
      1 1 (by decide) rfl (by decide) (by decide),
   notifGeneration_amended.2.2.2.1 c10St twoMentionRec.facets twoMentionRec.facets
      2 "at://did:plc:alice/app.bsky.feed.post/m1" 90,
   notifGeneration_amended.2.2.2.2 c10St 2
      "at://did:plc:alice/app.bsky.feed.post/m1" 90 "did:plc:me"
      (getOrCreateRepo c10St "did:plc:me").1 (getOrCreateRepo c10St "did:plc:me").2
      rfl (by decide)⟩
end Konbini
